import Mathlib

/-!
Verification development for a clox-style bytecode compiler and VM.

The compiler (`compiler.c`) is embedded as a pure state machine over the
scanner's token stream (the scanner itself is a separate lexer producing a
list of tokens; compilation is modelled as a function of that list).  All
recursion in the mutually recursive Pratt parser is made total with an
explicit fuel parameter; running out of fuel leaves the state unchanged.

Machine-level details that are not observable by any property proved here
are modelled as follows:
* bytecode bytes are `Nat` (each emitted byte is < 256 in the source);
  opcode numeric values come from the `OpCode` enumeration of `chunk.h`,
  rendered as distinct `Nat` constants in declaration order;
* number constants are keyed by their lexeme (the `strtod` conversion to
  IEEE-754 is not needed by any claim), string constants by their bytes;
* `errorAt`'s stderr output is recorded as the list of reported messages.
-/

set_option maxRecDepth 100000

namespace Clox

/-- Token kinds, in the declaration order of `scanner.h` (the order is fixed
by the `rules` table in `compiler.c`, whose rows are commented with the
token each entry belongs to). -/
inductive TokenType where
  | leftParen | rightParen | leftBrace | rightBrace
  | comma | dot | minus | plus | semicolon | slash | star
  | bang | bangEqual | equal | equalEqual
  | greater | greaterEqual | less | lessEqual
  | identifier | stringTok | number
  | and_ | class_ | else_ | false_ | for_ | fun_ | if_ | nil
  | or_ | print | return_ | super_ | this_ | true_ | var_ | while_
  | error | eof
deriving DecidableEq, Repr

/-- A scanner token: kind, lexeme bytes (`start`/`length` in C), line. -/
structure Token where
  type : TokenType
  lexeme : String
  line : Nat
deriving DecidableEq, Repr

def dummyToken : Token := { type := .eof, lexeme := "", line := 0 }

/-- Parser state (`Parser` in compiler.c) plus the remaining token stream
(standing for the scanner state) and the log of reported error messages
(standing for the stderr output of `errorAt`). -/
structure ParserSt where
  previous : Token
  current : Token
  hadError : Bool
  panicMode : Bool
  tokens : List Token
  errors : List String
deriving Repr

/-- Precedence levels (`Precedence` in compiler.c), as C enum values. -/
def PREC_NONE : Nat := 0
def PREC_ASSIGNMENT : Nat := 1
def PREC_OR : Nat := 2
def PREC_AND : Nat := 3
def PREC_EQUALITY : Nat := 4
def PREC_COMPARISON : Nat := 5
def PREC_TERM : Nat := 6
def PREC_FACTOR : Nat := 7
def PREC_UNARY : Nat := 8
def PREC_CALL : Nat := 9
def PREC_PRIMARY : Nat := 10

/-- Opcode byte values (the `OpCode` enumeration of `chunk.h`, in
declaration order; the concrete numbering is not observable). -/
def OP_CONSTANT : Nat := 0
def OP_NIL : Nat := 1
def OP_TRUE : Nat := 2
def OP_FALSE : Nat := 3
def OP_POP : Nat := 4
def OP_GET_LOCAL : Nat := 5
def OP_SET_LOCAL : Nat := 6
def OP_GET_GLOBAL : Nat := 7
def OP_DEFINE_GLOBAL : Nat := 8
def OP_SET_GLOBAL : Nat := 9
def OP_EQUAL : Nat := 10
def OP_GREATER : Nat := 11
def OP_LESS : Nat := 12
def OP_ADD : Nat := 13
def OP_SUBTRACT : Nat := 14
def OP_MULTIPY : Nat := 15
def OP_DIVIDE : Nat := 16
def OP_NOT : Nat := 17
def OP_NEGATE : Nat := 18
def OP_PRINT : Nat := 19
def OP_JUMP : Nat := 20
def OP_JUMP_IF_FALSE : Nat := 21
def OP_LOOP : Nat := 22
def OP_CALL : Nat := 23
def OP_RETURN : Nat := 24

def UINT8_COUNT : Nat := 256

/-- Constant-pool values.  A number constant is keyed by its lexeme, a
string constant by its (interned) bytes; a function constant carries the
completed `ObjFunction`'s fields. -/
inductive CValue where
  | numLit (lexeme : String)
  | str (bytes : String)
  | fn (arity : Nat) (name : Option String) (code : List Nat)
      (lines : List Nat) (constants : List CValue)

/-- `Chunk`: bytecode, parallel line array, constant pool. -/
structure Chunk where
  code : List Nat
  lines : List Nat
  constants : List CValue

def emptyChunk : Chunk := { code := [], lines := [], constants := [] }

/-- `writeChunk` (chunk.c): append one byte and its source line. -/
def writeChunk (c : Chunk) (byte : Nat) (line : Nat) : Chunk :=
  { c with code := c.code ++ [byte], lines := c.lines ++ [line] }

/-- `addConstant` (chunk.c, declared in chunk.h): append a value to the
constant pool and return its index. -/
def addConstant (c : Chunk) (v : CValue) : Nat × Chunk :=
  (c.constants.length, { c with constants := c.constants ++ [v] })

/-- `ObjFunction` (object.h): arity, name, owned chunk. -/
structure ObjFunction where
  arity : Nat
  name : Option String
  chunk : Chunk

def CValue.ofFunction (f : ObjFunction) : CValue :=
  .fn f.arity f.name f.chunk.code f.chunk.lines f.chunk.constants

def newFunction : ObjFunction := { arity := 0, name := none, chunk := emptyChunk }

/-- `Local` in compiler.c: variable name token and scope depth
(`-1` marks declared-but-uninitialized). -/
structure LocalV where
  name : Token
  depth : Int
deriving DecidableEq, Repr

inductive FunctionType where
  | typeFunction
  | typeScript
deriving DecidableEq, Repr

/-- One `Compiler` record of compiler.c (minus the `enclosing` pointer,
which is represented by the list structure of `CState.compilers`). -/
structure CompilerF where
  function : ObjFunction
  functionType : FunctionType
  locals : List LocalV
  scopeDepth : Int

/-- Whole compiler state: the global `parser` plus the stack of `Compiler`
records (head = `current`, tail = the `enclosing` chain). -/
structure CState where
  parser : ParserSt
  compilers : List CompilerF

instance : Inhabited CompilerF :=
  ⟨{ function := { arity := 0, name := none, chunk := { code := [], lines := [], constants := [] } },
     functionType := .typeScript, locals := [], scopeDepth := 0 }⟩

/-! Helpers for the `current` compiler frame. -/

def modifyFrame (f : CompilerF → CompilerF) (st : CState) : CState :=
  match st.compilers with
  | [] => st
  | c :: rest => { st with compilers := f c :: rest }

def modifyChunk (f : Chunk → Chunk) : CState → CState :=
  modifyFrame fun c =>
    { c with function := { c.function with chunk := f c.function.chunk } }

/-- `currentChunk()`. -/
def currentChunk (st : CState) : Chunk :=
  match st.compilers with
  | [] => emptyChunk
  | c :: _ => c.function.chunk

def chunkCount (st : CState) : Nat := (currentChunk st).code.length

def currentLocals (st : CState) : List LocalV :=
  match st.compilers with
  | [] => []
  | c :: _ => c.locals

def scopeDepthOf (st : CState) : Int :=
  match st.compilers with
  | [] => 0
  | c :: _ => c.scopeDepth

def functionTypeOf (st : CState) : FunctionType :=
  match st.compilers with
  | [] => .typeScript
  | c :: _ => c.functionType

def arityOf (st : CState) : Nat :=
  match st.compilers with
  | [] => 0
  | c :: _ => c.function.arity

def incArity : CState → CState :=
  modifyFrame fun c =>
    { c with function := { c.function with arity := c.function.arity + 1 } }

/-! Error reporting. -/

/-- `errorAt`: in panic mode the report is suppressed; otherwise panic mode
is entered, the message is printed (recorded in `errors`) and `hadError`
is set. -/
def errorAt (_tok : Token) (message : String) (st : CState) : CState :=
  if st.parser.panicMode then st
  else
    { st with parser := { st.parser with
        panicMode := true
        errors := st.parser.errors ++ [message]
        hadError := true } }

/-- `error`: report at the previous token. -/
def error (message : String) (st : CState) : CState :=
  errorAt st.parser.previous message st

/-- `errorAtCurrent`: report at the current token. -/
def errorAtCurrent (message : String) (st : CState) : CState :=
  errorAt st.parser.current message st

/-! Token stream. -/

/-- `scanToken`: pop the next token from the stream; an exhausted stream
keeps producing EOF tokens. -/
def scanToken : List Token → Token × List Token
  | [] => (dummyToken, [])
  | t :: ts => (t, ts)

/-- The scan loop inside `advance()`: keep pulling tokens while they are
ERROR tokens, reporting each (the error token's lexeme is the message the
scanner put in `start`).  Each iteration consumes one stream token, so
`tokens.length + 1` fuel always suffices. -/
def advanceLoop : Nat → CState → CState
  | 0, st => st
  | n + 1, st =>
    let tr := scanToken st.parser.tokens
    let st := { st with parser := { st.parser with current := tr.1, tokens := tr.2 } }
    if tr.1.type = .error then advanceLoop n (errorAtCurrent tr.1.lexeme st) else st

/-- `advance()`. -/
def advance (st : CState) : CState :=
  advanceLoop (st.parser.tokens.length + 1)
    { st with parser := { st.parser with previous := st.parser.current } }

/-- `check(type)`. -/
def check (t : TokenType) (st : CState) : Bool :=
  st.parser.current.type = t

/-- `consume(type, message)`. -/
def consume (t : TokenType) (message : String) (st : CState) : CState :=
  if check t st then advance st else errorAtCurrent message st

/-- `match(type)` (named `matchTok` because `match` is reserved). -/
def matchTok (t : TokenType) (st : CState) : Bool × CState :=
  if check t st then (true, advance st) else (false, st)

/-! Emitters. -/

/-- `emitByte`: write to the current chunk at the previous token's line. -/
def emitByte (byte : Nat) (st : CState) : CState :=
  modifyChunk (fun ch => writeChunk ch byte st.parser.previous.line) st

def emitBytes (byte1 byte2 : Nat) (st : CState) : CState :=
  emitByte byte2 (emitByte byte1 st)

/-- `emitLoop(loopStart)`.  C computes `offset` as an `int`; the two
operand bytes `(offset >> 8) & 0xff` and `offset & 0xff` are rendered via
`Int.toNat` (the shift/mask arithmetic on the nonnegative offsets that
occur). -/
def emitLoop (loopStart : Int) (st : CState) : CState :=
  let st := emitByte OP_LOOP st
  let offset : Int := (chunkCount st : Int) - loopStart + 2
  let st := if offset > 65535 then error "Loop body too large." st else st
  let st := emitByte ((offset.toNat >>> 8) &&& 0xff) st
  emitByte (offset.toNat &&& 0xff) st

/-- `emitJump(instruction)`: opcode plus two `0xff` placeholders; returns
the offset of the placeholders. -/
def emitJump (instruction : Nat) (st : CState) : Int × CState :=
  let st := emitByte instruction st
  let st := emitByte 0xff st
  let st := emitByte 0xff st
  ((chunkCount st : Int) - 2, st)

/-- `emitReturn()`. -/
def emitReturn (st : CState) : CState :=
  emitByte OP_RETURN (emitByte OP_NIL st)

/-- `makeConstant(value)`: add to the pool, error (returning index 0) past
`UINT8_MAX`. -/
def makeConstant (v : CValue) (st : CState) : Nat × CState :=
  let ac := addConstant (currentChunk st) v
  let st := modifyChunk (fun _ => ac.2) st
  if ac.1 > 255 then (0, error "Too many constants in one chunk." st)
  else (ac.1, st)

/-- `emitConstant(value)`. -/
def emitConstant (v : CValue) (st : CState) : CState :=
  let mk := makeConstant v st
  emitBytes OP_CONSTANT mk.1 mk.2

/-- `patchJump(offset)`: back-patch the two placeholder bytes with the
big-endian distance from the byte after the placeholder to the current end
of the code. -/
def patchJump (offset : Int) (st : CState) : CState :=
  let jump : Int := (chunkCount st : Int) - offset - 2
  let st := if jump > 65535 then error "Too much code to jump over." st else st
  let st := modifyChunk (fun ch =>
    { ch with code := ch.code.set offset.toNat ((jump.toNat >>> 8) &&& 0xff) }) st
  modifyChunk (fun ch =>
    { ch with code := ch.code.set (offset.toNat + 1) (jump.toNat &&& 0xff) }) st

/-! Compiler-frame management. -/

/-- `initCompiler(compiler, functionType)`: push a fresh frame; non-script
frames take their name from the just-consumed identifier; local slot 0 is
reserved with an empty name at depth 0. -/
def initCompiler (functionType : FunctionType) (st : CState) : CState :=
  let fname : Option String :=
    if functionType ≠ .typeScript then some st.parser.previous.lexeme else none
  let frame : CompilerF :=
    { function := { newFunction with name := fname }
      functionType := functionType
      locals := [{ name := { type := .eof, lexeme := "", line := 0 }, depth := 0 }]
      scopeDepth := 0 }
  { st with compilers := frame :: st.compilers }

/-- `endCompiler()`: emit the implicit return, pop the frame, hand back
its function. -/
def endCompiler (st : CState) : ObjFunction × CState :=
  let st := emitReturn st
  match st.compilers with
  | [] => (newFunction, st)
  | c :: rest => (c.function, { st with compilers := rest })

/-- `beginScope()`. -/
def beginScope : CState → CState :=
  modifyFrame fun c => { c with scopeDepth := c.scopeDepth + 1 }

/-- The while loop of `endScope()`: pop locals deeper than the new scope
depth, emitting one `OP_POP` each.  Each iteration removes one local, so
the local count is enough fuel. -/
def endScopeLoop : Nat → CState → CState
  | 0, st => st
  | n + 1, st =>
    match (currentLocals st).getLast? with
    | none => st
    | some l =>
      if l.depth > scopeDepthOf st then
        let st := emitByte OP_POP st
        let st := modifyFrame (fun c => { c with locals := c.locals.dropLast }) st
        endScopeLoop n st
      else st

/-- `endScope()`. -/
def endScope (st : CState) : CState :=
  let st := modifyFrame (fun c => { c with scopeDepth := c.scopeDepth - 1 }) st
  endScopeLoop (currentLocals st).length st

/-! Identifiers, locals, variables. -/

/-- `identifierConstant(name)`: the name's bytes as a string constant. -/
def identifierConstant (name : Token) (st : CState) : Nat × CState :=
  makeConstant (.str name.lexeme) st

/-- `identifiersEqual`: same length, same bytes. -/
def identifiersEqual (a b : Token) : Bool :=
  a.lexeme = b.lexeme

/-- The scan of `resolveLocal`: walk the locals from `localCount - 1` down
to 0, returning the first (innermost) index whose name matches. -/
def resolveLocalAux (name : Token) : List (Nat × LocalV) → Option (Nat × LocalV)
  | [] => none
  | (i, l) :: rest =>
    if identifiersEqual name l.name then some (i, l) else resolveLocalAux name rest

/-- `resolveLocal(current, name)`: innermost matching local's slot (or -1),
erroring on a read inside the variable's own initializer. -/
def resolveLocal (name : Token) (st : CState) : Int × CState :=
  match resolveLocalAux name (currentLocals st).enum.reverse with
  | none => (-1, st)
  | some il =>
    ((il.1 : Int),
     if il.2.depth = -1 then
       error "Cannot read local variable in its own initializer." st
     else st)

/-- `addLocal(name)`: error when the 256-entry locals array is full,
otherwise append the local with depth -1. -/
def addLocal (name : Token) (st : CState) : CState :=
  if (currentLocals st).length = UINT8_COUNT then
    error "Too many local variables in function (max 256)." st
  else
    modifyFrame (fun c => { c with locals := c.locals ++ [{ name := name, depth := -1 }] }) st

/-- The duplicate-check loop of `declareVariable`, over the locals from the
top down: stop at the first initialized local of an outer scope; report a
redeclaration for every same-name local seen before that. -/
def declareVarLoop (name : Token) (scopeDepth : Int) :
    List LocalV → CState → CState
  | [], st => st
  | l :: rest, st =>
    if l.depth ≠ -1 ∧ l.depth < scopeDepth then st
    else
      let st :=
        if identifiersEqual name l.name then
          error "Variable with this name already declared in this scope." st
        else st
      declareVarLoop name scopeDepth rest st

/-- `declareVariable()`. -/
def declareVariable (st : CState) : CState :=
  if scopeDepthOf st = 0 then st
  else
    let name := st.parser.previous
    let st := declareVarLoop name (scopeDepthOf st) (currentLocals st).reverse st
    addLocal name st

/-- `parseVariable(errorMessage)`. -/
def parseVariable (errorMessage : String) (st : CState) : Nat × CState :=
  let st := consume .identifier errorMessage st
  let st := declareVariable st
  if scopeDepthOf st > 0 then (0, st)
  else identifierConstant st.parser.previous st

/-- `markInitialized()`: at depth 0 do nothing; otherwise set the latest
local's depth to the current scope depth. -/
def markInitialized (st : CState) : CState :=
  if scopeDepthOf st = 0 then st
  else
    modifyFrame (fun c =>
      match c.locals.getLast? with
      | some l => { c with locals := c.locals.dropLast ++ [{ l with depth := c.scopeDepth }] }
      | none => c) st

/-- `defineVariable(index)`: locals are just marked initialized (their
value stays on the stack); globals get `OP_DEFINE_GLOBAL index`. -/
def defineVariable (index : Nat) (st : CState) : CState :=
  if scopeDepthOf st > 0 then markInitialized st
  else emitBytes OP_DEFINE_GLOBAL index st

/-- The loop of `synchronize()`: skip tokens to the next statement
boundary.  Each iteration advances, so stream length + 1 fuel suffices. -/
def syncLoop : Nat → CState → CState
  | 0, st => st
  | n + 1, st =>
    if st.parser.current.type = .eof then st
    else if st.parser.previous.type = .semicolon then st
    else
      match st.parser.current.type with
      | .class_ | .fun_ | .var_ | .for_ | .if_ | .while_ | .print | .return_ => st
      | _ => syncLoop n (advance st)

/-- `synchronize()`. -/
def synchronize (st : CState) : CState :=
  let st := { st with parser := { st.parser with panicMode := false } }
  syncLoop (st.parser.tokens.length + 1) st

/-! The Pratt rule table and the mutually recursive parse functions.

The C parse functions call each other through direct recursion and through
the function pointers stored in `rules[]`.  They are embedded as one
fuel-indexed dispatcher `run` over the inductive `PFn` naming each
function (the technique the spec itself suggests for hosts without
function pointers); every recursive call spends one unit of fuel, and
exhausted fuel leaves the state unchanged. -/

/-- Identity of a prefix/infix rule function stored in `rules[]`. -/
inductive RuleKind where
  | grouping | call | unary | binary | literal | numberR | stringR
  | variable | andR | orR
deriving DecidableEq, Repr

/-- `rules[]`, indexed by token type: prefix rule, infix rule,
precedence. -/
def getRule : TokenType → Option RuleKind × Option RuleKind × Nat
  | .leftParen => (some .grouping, some .call, PREC_CALL)
  | .rightParen => (none, none, PREC_NONE)
  | .leftBrace => (none, none, PREC_NONE)
  | .rightBrace => (none, none, PREC_NONE)
  | .comma => (none, none, PREC_NONE)
  | .dot => (none, none, PREC_NONE)
  | .minus => (some .unary, some .binary, PREC_TERM)
  | .plus => (none, some .binary, PREC_TERM)
  | .semicolon => (none, none, PREC_NONE)
  | .slash => (none, some .binary, PREC_FACTOR)
  | .star => (none, some .binary, PREC_FACTOR)
  | .bang => (some .unary, none, PREC_NONE)
  | .bangEqual => (none, some .binary, PREC_EQUALITY)
  | .equal => (none, none, PREC_NONE)
  | .equalEqual => (none, some .binary, PREC_EQUALITY)
  | .greater => (none, some .binary, PREC_COMPARISON)
  | .greaterEqual => (none, some .binary, PREC_COMPARISON)
  | .less => (none, some .binary, PREC_COMPARISON)
  | .lessEqual => (none, some .binary, PREC_COMPARISON)
  | .identifier => (some .variable, none, PREC_NONE)
  | .stringTok => (some .stringR, none, PREC_NONE)
  | .number => (some .numberR, none, PREC_NONE)
  | .and_ => (none, some .andR, PREC_AND)
  | .class_ => (none, none, PREC_NONE)
  | .else_ => (none, none, PREC_NONE)
  | .false_ => (some .literal, none, PREC_NONE)
  | .for_ => (none, none, PREC_NONE)
  | .fun_ => (none, none, PREC_NONE)
  | .if_ => (none, none, PREC_NONE)
  | .nil => (some .literal, none, PREC_NONE)
  | .or_ => (none, some .orR, PREC_OR)
  | .print => (none, none, PREC_NONE)
  | .return_ => (none, none, PREC_NONE)
  | .super_ => (none, none, PREC_NONE)
  | .this_ => (none, none, PREC_NONE)
  | .true_ => (some .literal, none, PREC_NONE)
  | .var_ => (none, none, PREC_NONE)
  | .while_ => (none, none, PREC_NONE)
  | .error => (none, none, PREC_NONE)
  | .eof => (none, none, PREC_NONE)

/-- The parse functions of compiler.c that take part in the mutual
recursion (directly or through `rules[]`), plus the bodies of their
`while`/`do-while` loops. -/
inductive PFn where
  | declaration
  | statement
  | expression
  | block
  | blockLoop
  | varDeclaration
  | funDeclaration
  | functionBody (t : FunctionType)
  | paramLoop
  | statementExpr
  | statementPrint
  | statementReturn
  | statementIf
  | statementWhile
  | statementFor
  | parsePrec (p : Nat)
  | infixLoop (p : Nat) (canAssign : Bool)
  | binary (canAssign : Bool)
  | unary (canAssign : Bool)
  | grouping (canAssign : Bool)
  | literalFn (canAssign : Bool)
  | numberFn (canAssign : Bool)
  | stringFn (canAssign : Bool)
  | variableFn (canAssign : Bool)
  | namedVariable (name : Token) (canAssign : Bool)
  | andFn (canAssign : Bool)
  | orFn (canAssign : Bool)
  | callFn (canAssign : Bool)
  | argumentList
  | argListLoop (argCount : Nat)
deriving DecidableEq, Repr

/-- Dispatch a `rules[]` entry, like the C calls through the stored
function pointer. -/
def toPFn (r : RuleKind) (canAssign : Bool) : PFn :=
  match r with
  | .grouping => .grouping canAssign
  | .call => .callFn canAssign
  | .unary => .unary canAssign
  | .binary => .binary canAssign
  | .literal => .literalFn canAssign
  | .numberR => .numberFn canAssign
  | .stringR => .stringFn canAssign
  | .variable => .variableFn canAssign
  | .andR => .andFn canAssign
  | .orR => .orFn canAssign

/-- The interior bytes of a string literal: `start + 1`, `length - 2`. -/
def stringInterior (s : String) : String :=
  String.mk ((s.toList.drop 1).dropLast)

/-- The type of the recursive callback through which each parse function
reaches the others (the C functions call each other directly and through
the function pointers in `rules[]`; their mutual recursion is tied by the
fuel-indexed dispatcher `run` below).  The `Nat` component of a result is
the value returned by `argumentList` (0 for the functions that return no
value). -/
abbrev RunFn := PFn → CState → CState × Nat

/-- `declaration()`. -/
def declaration (r : RunFn) (st : CState) : CState × Nat :=
  let m1 := matchTok .fun_ st
  let st :=
    if m1.1 then (r .funDeclaration m1.2).1
    else
      let m2 := matchTok .var_ m1.2
      if m2.1 then (r .varDeclaration m2.2).1
      else (r .statement m2.2).1
  (if st.parser.panicMode then synchronize st else st, 0)

/-- `statement()`: try each statement keyword with `match` in turn (each
`mN` is the `(matched?, state)` pair of one `match(TOKEN_X)` call). -/
def statement (r : RunFn) (st : CState) : CState × Nat :=
  let m1 := matchTok .print st
  if m1.1 then ((r .statementPrint m1.2).1, 0) else
  let m2 := matchTok .for_ m1.2
  if m2.1 then ((r .statementFor m2.2).1, 0) else
  let m3 := matchTok .if_ m2.2
  if m3.1 then ((r .statementIf m3.2).1, 0) else
  let m4 := matchTok .return_ m3.2
  if m4.1 then ((r .statementReturn m4.2).1, 0) else
  let m5 := matchTok .while_ m4.2
  if m5.1 then ((r .statementWhile m5.2).1, 0) else
  let m6 := matchTok .leftBrace m5.2
  if m6.1 then
    let st := beginScope m6.2
    let st := (r .block st).1
    (endScope st, 0)
  else ((r .statementExpr m6.2).1, 0)

/-- `expression()`. -/
def expression (r : RunFn) (st : CState) : CState × Nat :=
  ((r (.parsePrec PREC_ASSIGNMENT) st).1, 0)

/-- The while loop of `block()`. -/
def blockLoop (r : RunFn) (st : CState) : CState × Nat :=
  if !(check .rightBrace st) && !(check .eof st) then
    let st := (r .declaration st).1
    ((r .blockLoop st).1, 0)
  else (st, 0)

/-- `block()`. -/
def block (r : RunFn) (st : CState) : CState × Nat :=
  let st := (r .blockLoop st).1
  (consume .rightBrace "Expect \x27\x7d\x27 after block." st, 0)

/-- `varDeclaration()`. -/
def varDeclaration (r : RunFn) (st : CState) : CState × Nat :=
  let pv := parseVariable "Expect variable name." st
  let m := matchTok .equal pv.2
  let st := if m.1 then (r .expression m.2).1 else emitByte OP_NIL m.2
  let st := consume .semicolon "Expect \x27;\x27 after variable declaration." st
  (defineVariable pv.1 st, 0)

/-- `funDeclaration()`. -/
def funDeclaration (r : RunFn) (st : CState) : CState × Nat :=
  let pv := parseVariable "Expect function name." st
  let st := markInitialized pv.2
  let st := (r (.functionBody .typeFunction) st).1
  (defineVariable pv.1 st, 0)

/-- The do-while parameter loop of `function()`. -/
def paramLoop (r : RunFn) (st : CState) : CState × Nat :=
  let st := incArity st
  let st :=
    if arityOf st > 255 then
      errorAtCurrent "Cannot have more than 255 parameters" st
    else st
  let pv := parseVariable "Expect parameter name." st
  let st := defineVariable pv.1 pv.2
  let m := matchTok .comma st
  if m.1 then ((r .paramLoop m.2).1, 0) else (m.2, 0)

/-- `function(functionType)`. -/
def functionF (t : FunctionType) (r : RunFn) (st : CState) : CState × Nat :=
  let st := initCompiler t st
  let st := beginScope st
  let st := consume .leftParen "Expect \x27(\x27 after function name." st
  let st := if !(check .rightParen st) then (r .paramLoop st).1 else st
  let st := consume .rightParen "Expect \x27)\x27 after parameters." st
  let st := consume .leftBrace "Expect \x27\x7b\x27 before function body." st
  let st := (r .block st).1
  let fc := endCompiler st
  let mk := makeConstant (CValue.ofFunction fc.1) fc.2
  (emitBytes OP_CONSTANT mk.1 mk.2, 0)

/-- `expressionStatement()`. -/
def expressionStatement (r : RunFn) (st : CState) : CState × Nat :=
  let st := (r .expression st).1
  let st := consume .semicolon "Expect \x27;\x27 after expression." st
  (emitByte OP_POP st, 0)

/-- `printStatement()`. -/
def printStatement (r : RunFn) (st : CState) : CState × Nat :=
  let st := (r .expression st).1
  let st := consume .semicolon "Expect \x27;\x27 after expression." st
  (emitByte OP_PRINT st, 0)

/-- `returnStatement()`. -/
def returnStatement (r : RunFn) (st : CState) : CState × Nat :=
  let st :=
    if functionTypeOf st = .typeScript then
      error "Cannot return from top-level code." st
    else st
  let m := matchTok .semicolon st
  if m.1 then (emitReturn m.2, 0)
  else
    let st := (r .expression m.2).1
    let st := consume .semicolon "Expect \x27;\x27 after return value." st
    (emitByte OP_RETURN st, 0)

/-- `ifStatement()`. -/
def ifStatement (r : RunFn) (st : CState) : CState × Nat :=
  let st := consume .leftParen "Expect \x27(\x27 after \x27if\x27." st
  let st := (r .expression st).1
  let st := consume .rightParen "Expect \x27)\x27 after condition." st
  let thenJump := emitJump OP_JUMP_IF_FALSE st
  let st := emitByte OP_POP thenJump.2
  let st := (r .statement st).1
  let elseJump := emitJump OP_JUMP st
  let st := patchJump thenJump.1 elseJump.2
  let st := emitByte OP_POP st
  let m := matchTok .else_ st
  let st := if m.1 then (r .statement m.2).1 else m.2
  (patchJump elseJump.1 st, 0)

/-- `whileStatement()`. -/
def whileStatement (r : RunFn) (st : CState) : CState × Nat :=
  let st := consume .leftParen "Expect \x27(\x27 after \x27while\x27." st
  let loopStart : Int := chunkCount st
  let st := (r .expression st).1
  let st := consume .rightParen "Expect \x27)\x27 after condition." st
  let exitJump := emitJump OP_JUMP_IF_FALSE st
  let st := emitByte OP_POP exitJump.2
  let st := (r .statement st).1
  let st := emitLoop loopStart st
  let st := patchJump exitJump.1 st
  (emitByte OP_POP st, 0)

/-- `forStatement()`. -/
def forStatement (r : RunFn) (st : CState) : CState × Nat :=
  let st := beginScope st
  let st := consume .leftParen "Expect \x27(\x27 after \x27for\x27." st
  let mi := matchTok .semicolon st
  let st :=
    if mi.1 then mi.2
    else
      let mv := matchTok .var_ mi.2
      if mv.1 then (r .varDeclaration mv.2).1
      else (r .statementExpr mv.2).1
  let loopStart : Int := chunkCount st
  let mc := matchTok .semicolon st
  let rc :=
    if mc.1 then ((-1 : Int), mc.2)
    else
      let st := (r .expression mc.2).1
      let st := consume .semicolon "Expect \x27;\x27 after loop condition." st
      let e := emitJump OP_JUMP_IF_FALSE st
      (e.1, emitByte OP_POP e.2)
  let exitJump := rc.1
  let mr := matchTok .rightParen rc.2
  let rl :=
    if mr.1 then (loopStart, mr.2)
    else
      let bodyJump := emitJump OP_JUMP mr.2
      let incrementStart : Int := chunkCount bodyJump.2
      let st := (r .expression bodyJump.2).1
      let st := emitByte OP_POP st
      let st := consume .rightParen "Expect \x27)\x27 after for clauses." st
      let st := emitLoop loopStart st
      (incrementStart, patchJump bodyJump.1 st)
  let st := (r .statement rl.2).1
  let st := emitLoop rl.1 st
  let st :=
    if exitJump ≠ -1 then emitByte OP_POP (patchJump exitJump st) else st
  (endScope st, 0)

/-- `parsePrecedence(precedence)`. -/
def parsePrecedence (p : Nat) (r : RunFn) (st : CState) : CState × Nat :=
  let st := advance st
  match (getRule st.parser.previous.type).1 with
  | none => (error "Expect expression." st, 0)
  | some prefixRule =>
    let canAssign : Bool := p ≤ PREC_ASSIGNMENT
    let st := (r (toPFn prefixRule canAssign) st).1
    let st := (r (.infixLoop p canAssign) st).1
    if canAssign then
      let m := matchTok .equal st
      (if m.1 then error "Invalid assignment target." m.2 else m.2, 0)
    else (st, 0)

/-- The while loop of `parsePrecedence`: run infix rules while the current
token's precedence is at least `p`. -/
def infixLoop (p : Nat) (canAssign : Bool) (r : RunFn) (st : CState) : CState × Nat :=
  if p ≤ (getRule st.parser.current.type).2.2 then
    let st := advance st
    let st :=
      match (getRule st.parser.previous.type).2.1 with
      | some infixRule => (r (toPFn infixRule canAssign) st).1
      | none => st
    ((r (.infixLoop p canAssign) st).1, 0)
  else (st, 0)

/-- `binary(canAssign)`: remember the operator, compile the right operand
at one precedence level above it, emit the operator's opcode sequence. -/
def binary (r : RunFn) (st : CState) : CState × Nat :=
  let operatorType := st.parser.previous.type
  let rule := getRule operatorType
  let st := (r (.parsePrec (rule.2.2 + 1)) st).1
  (match operatorType with
   | .bangEqual => emitBytes OP_EQUAL OP_NOT st
   | .equalEqual => emitByte OP_EQUAL st
   | .greater => emitByte OP_GREATER st
   | .greaterEqual => emitBytes OP_LESS OP_NOT st
   | .less => emitByte OP_LESS st
   | .lessEqual => emitBytes OP_GREATER OP_NOT st
   | .plus => emitByte OP_ADD st
   | .minus => emitByte OP_SUBTRACT st
   | .star => emitByte OP_MULTIPY st
   | .slash => emitByte OP_DIVIDE st
   | _ => st, 0)

/-- `unary(canAssign)`. -/
def unary (r : RunFn) (st : CState) : CState × Nat :=
  let operatorType := st.parser.previous.type
  let st := (r (.parsePrec PREC_UNARY) st).1
  (match operatorType with
   | .bang => emitByte OP_NOT st
   | .minus => emitByte OP_NEGATE st
   | _ => st, 0)

/-- `grouping(canAssign)`. -/
def grouping (r : RunFn) (st : CState) : CState × Nat :=
  let st := (r .expression st).1
  (consume .rightParen "Expect \x27)\x27 after expression." st, 0)

/-- `literal(canAssign)`. -/
def literal (st : CState) : CState × Nat :=
  (match st.parser.previous.type with
   | .false_ => emitByte OP_FALSE st
   | .nil => emitByte OP_NIL st
   | .true_ => emitByte OP_TRUE st
   | _ => st, 0)

/-- `number(canAssign)`: the parsed double, keyed by its lexeme. -/
def numberF (st : CState) : CState × Nat :=
  (emitConstant (.numLit st.parser.previous.lexeme) st, 0)

/-- `string(canAssign)`: the literal's interior bytes, interned. -/
def stringF (st : CState) : CState × Nat :=
  (emitConstant (.str (stringInterior st.parser.previous.lexeme)) st, 0)

/-- `namedVariable(name, canAssign)`. -/
def namedVariable (name : Token) (canAssign : Bool) (r : RunFn) (st : CState) :
    CState × Nat :=
  let rl := resolveLocal name st
  let rg :=
    if rl.1 ≠ -1 then (rl.1, OP_GET_LOCAL, OP_SET_LOCAL, rl.2)
    else
      let k := identifierConstant name rl.2
      ((k.1 : Int), OP_GET_GLOBAL, OP_SET_GLOBAL, k.2)
  let arg := rg.1
  let getOp := rg.2.1
  let setOp := rg.2.2.1
  let st := rg.2.2.2
  if canAssign then
    let m := matchTok .equal st
    if m.1 then
      let st := (r .expression m.2).1
      (emitBytes setOp (arg.toNat % 256) st, 0)
    else (emitBytes getOp (arg.toNat % 256) m.2, 0)
  else (emitBytes getOp (arg.toNat % 256) st, 0)

/-- `variable(canAssign)`. -/
def variableF (canAssign : Bool) (r : RunFn) (st : CState) : CState × Nat :=
  ((r (.namedVariable st.parser.previous canAssign) st).1, 0)

/-- `and_(canAssign)`. -/
def and_ (r : RunFn) (st : CState) : CState × Nat :=
  let endJump := emitJump OP_JUMP_IF_FALSE st
  let st := emitByte OP_POP endJump.2
  let st := (r (.parsePrec PREC_AND) st).1
  (patchJump endJump.1 st, 0)

/-- `or_(canAssign)`. -/
def or_ (r : RunFn) (st : CState) : CState × Nat :=
  let elseJump := emitJump OP_JUMP_IF_FALSE st
  let endJump := emitJump OP_JUMP elseJump.2
  let st := patchJump elseJump.1 endJump.2
  let st := emitByte OP_POP st
  let st := (r (.parsePrec PREC_OR) st).1
  (patchJump endJump.1 st, 0)

/-- `call(canAssign)`. -/
def call (r : RunFn) (st : CState) : CState × Nat :=
  let ac := r .argumentList st
  (emitBytes OP_CALL ac.2 ac.1, 0)

/-- The do-while loop of `argumentList()`: compile one argument, bump the
count (a `uint8_t`, so 255 wraps to 0 after the too-many-arguments error),
continue on a comma.  Returns the final count. -/
def argListLoop (argCount : Nat) (r : RunFn) (st : CState) : CState × Nat :=
  let st := (r .expression st).1
  let st :=
    if argCount = 255 then
      error "Cannot have more than 255 arguments." st
    else st
  let argCount := (argCount + 1) % 256
  let m := matchTok .comma st
  if m.1 then r (.argListLoop argCount) m.2
  else (m.2, argCount)

/-- `argumentList()`. -/
def argumentList (r : RunFn) (st : CState) : CState × Nat :=
  if !(check .rightParen st) then
    let rn := r (.argListLoop 0) st
    (consume .rightParen "Expect \x27)\x27 after arguments." rn.1, rn.2)
  else (consume .rightParen "Expect \x27)\x27 after arguments." st, 0)

/-- Tie the mutual recursion: dispatch each `PFn` to its transcription,
spending one unit of fuel per call. -/
def run : Nat → PFn → CState → CState × Nat
  | 0, _, st => (st, 0)
  | fuel + 1, pf, st =>
    match pf with
    | .declaration => declaration (run fuel) st
    | .statement => statement (run fuel) st
    | .expression => expression (run fuel) st
    | .block => block (run fuel) st
    | .blockLoop => blockLoop (run fuel) st
    | .varDeclaration => varDeclaration (run fuel) st
    | .funDeclaration => funDeclaration (run fuel) st
    | .functionBody t => functionF t (run fuel) st
    | .paramLoop => paramLoop (run fuel) st
    | .statementExpr => expressionStatement (run fuel) st
    | .statementPrint => printStatement (run fuel) st
    | .statementReturn => returnStatement (run fuel) st
    | .statementIf => ifStatement (run fuel) st
    | .statementWhile => whileStatement (run fuel) st
    | .statementFor => forStatement (run fuel) st
    | .parsePrec p => parsePrecedence p (run fuel) st
    | .infixLoop p c => infixLoop p c (run fuel) st
    | .binary _ => binary (run fuel) st
    | .unary _ => unary (run fuel) st
    | .grouping _ => grouping (run fuel) st
    | .literalFn _ => literal st
    | .numberFn _ => numberF st
    | .stringFn _ => stringF st
    | .variableFn c => variableF c (run fuel) st
    | .namedVariable n c => namedVariable n c (run fuel) st
    | .andFn _ => and_ (run fuel) st
    | .orFn _ => or_ (run fuel) st
    | .callFn _ => call (run fuel) st
    | .argumentList => argumentList (run fuel) st
    | .argListLoop n => argListLoop n (run fuel) st

/-- The `while (!match(TOKEN_EOF)) declaration();` loop of `compile`. -/
def compileLoop : Nat → CState → CState
  | 0, st => st
  | fuel + 1, st =>
    let m := matchTok .eof st
    if m.1 then m.2 else compileLoop fuel (run fuel .declaration m.2).1

/-- The state at the top of `compile`: fresh parser over the scanner's
token stream, no compiler frames yet. -/
def initState (tokens : List Token) : CState :=
  { parser := { previous := dummyToken, current := dummyToken,
                hadError := false, panicMode := false,
                tokens := tokens, errors := [] }
    compilers := [] }

/-- `compile(source)`: returns the top-level script function, or `none`
when `parser.hadError` is set on exit. -/
def compile (fuel : Nat) (tokens : List Token) : Option ObjFunction × CState :=
  let st := initState tokens
  let st := initCompiler .typeScript st
  let st := { st with parser := { st.parser with hadError := false, panicMode := false } }
  let st := advance st
  let st := compileLoop fuel st
  let fc := endCompiler st
  (if fc.2.parser.hadError then none else some fc.1, fc.2)

/-- `InterpretResult` (vm.h). -/
inductive InterpretResult where
  | ok
  | compileError
  | runtimeError
deriving DecidableEq, Repr

/-- `interpret(source)` as it stands in src/main.c lines 92-95: the result
of `compile` is discarded and `INTERPRET_OK` is returned unconditionally;
`run()` is never entered. -/
def interpret (fuel : Nat) (tokens : List Token) : InterpretResult :=
  let _ := compile fuel tokens
  InterpretResult.ok

/-! ### `hadError` is sticky

No compiler operation ever clears `parser.hadError`: the only writes are
`errorAt`'s `hadError := true` and the single initialization at the top of
`compile`.  The lemmas below state this for every primitive and then for
the fueled dispatcher by induction on fuel. -/

theorem errorAt_hadError (tok : Token) (m : String) (st : CState)
    (h : st.parser.hadError = true) : (errorAt tok m st).parser.hadError = true := by
  unfold errorAt
  split <;> simp [h]

theorem error_hadError (m : String) (st : CState)
    (h : st.parser.hadError = true) : (error m st).parser.hadError = true :=
  errorAt_hadError _ m st h

theorem errorAtCurrent_hadError (m : String) (st : CState)
    (h : st.parser.hadError = true) : (errorAtCurrent m st).parser.hadError = true :=
  errorAt_hadError _ m st h

theorem modifyFrame_parserEq (f : CompilerF → CompilerF) (st : CState) :
    (modifyFrame f st).parser = st.parser := by
  unfold modifyFrame
  split <;> rfl

theorem modifyChunk_parserEq (f : Chunk → Chunk) (st : CState) :
    (modifyChunk f st).parser = st.parser :=
  modifyFrame_parserEq _ st

theorem emitByte_parserEq (b : Nat) (st : CState) :
    (emitByte b st).parser = st.parser :=
  modifyChunk_parserEq _ st

theorem emitBytes_parserEq (b1 b2 : Nat) (st : CState) :
    (emitBytes b1 b2 st).parser = st.parser := by
  unfold emitBytes
  rw [emitByte_parserEq, emitByte_parserEq]

theorem emitReturn_parserEq (st : CState) :
    (emitReturn st).parser = st.parser := by
  unfold emitReturn
  rw [emitByte_parserEq, emitByte_parserEq]

theorem emitJump_parserEq (op : Nat) (st : CState) :
    (emitJump op st).2.parser = st.parser := by
  unfold emitJump
  rw [emitByte_parserEq, emitByte_parserEq, emitByte_parserEq]

theorem beginScope_parserEq (st : CState) :
    (beginScope st).parser = st.parser :=
  modifyFrame_parserEq _ st

theorem incArity_parserEq (st : CState) :
    (incArity st).parser = st.parser :=
  modifyFrame_parserEq _ st

theorem initCompiler_parserEq (ft : FunctionType) (st : CState) :
    (initCompiler ft st).parser = st.parser := rfl

theorem endCompiler_parserEq (st : CState) :
    (endCompiler st).2.parser = st.parser := by
  simp only [endCompiler]
  split <;> simp [emitReturn_parserEq]

theorem endScopeLoop_parserEq (n : Nat) (st : CState) :
    (endScopeLoop n st).parser = st.parser := by
  induction n generalizing st with
  | zero => rfl
  | succ n ih =>
    unfold endScopeLoop
    split
    · rfl
    · split
      · rw [ih, modifyFrame_parserEq, emitByte_parserEq]
      · rfl

theorem endScope_parserEq (st : CState) :
    (endScope st).parser = st.parser := by
  unfold endScope
  rw [endScopeLoop_parserEq, modifyFrame_parserEq]

theorem markInitialized_parserEq (st : CState) :
    (markInitialized st).parser = st.parser := by
  unfold markInitialized
  split
  · rfl
  · rw [modifyFrame_parserEq]

theorem advanceLoop_hadError (n : Nat) (st : CState)
    (h : st.parser.hadError = true) : (advanceLoop n st).parser.hadError = true := by
  induction n generalizing st with
  | zero => simpa [advanceLoop] using h
  | succ n ih =>
    rcases hl : st.parser.tokens with _ | ⟨t, ts⟩ <;>
      simp only [advanceLoop, scanToken, hl]
    · simpa using h
    · split
      · exact ih _ (errorAtCurrent_hadError _ _ (by simpa using h))
      · simpa using h

theorem advance_hadError (st : CState)
    (h : st.parser.hadError = true) : (advance st).parser.hadError = true :=
  advanceLoop_hadError _ _ (by simpa using h)

theorem consume_hadError (t : TokenType) (m : String) (st : CState)
    (h : st.parser.hadError = true) : (consume t m st).parser.hadError = true := by
  unfold consume
  split
  · exact advance_hadError st h
  · exact errorAtCurrent_hadError m st h

theorem matchTok_hadError (t : TokenType) (st : CState)
    (h : st.parser.hadError = true) : (matchTok t st).2.parser.hadError = true := by
  unfold matchTok
  split
  · exact advance_hadError st h
  · exact h

theorem emitLoop_hadError (ls : Int) (st : CState)
    (h : st.parser.hadError = true) : (emitLoop ls st).parser.hadError = true := by
  unfold emitLoop
  rw [emitByte_parserEq, emitByte_parserEq]
  split
  · exact error_hadError _ _ (by rw [emitByte_parserEq]; exact h)
  · rw [emitByte_parserEq]; exact h

theorem makeConstant_hadError (v : CValue) (st : CState)
    (h : st.parser.hadError = true) : (makeConstant v st).2.parser.hadError = true := by
  simp only [makeConstant, addConstant]
  split
  · exact error_hadError _ _ (by rw [modifyChunk_parserEq]; exact h)
  · rw [modifyChunk_parserEq]; exact h

theorem emitConstant_hadError (v : CValue) (st : CState)
    (h : st.parser.hadError = true) : (emitConstant v st).parser.hadError = true := by
  unfold emitConstant
  rw [emitBytes_parserEq]
  exact makeConstant_hadError v st h

theorem patchJump_hadError (off : Int) (st : CState)
    (h : st.parser.hadError = true) : (patchJump off st).parser.hadError = true := by
  unfold patchJump
  rw [modifyChunk_parserEq, modifyChunk_parserEq]
  split
  · exact error_hadError _ _ h
  · exact h

theorem identifierConstant_hadError (name : Token) (st : CState)
    (h : st.parser.hadError = true) :
    (identifierConstant name st).2.parser.hadError = true :=
  makeConstant_hadError _ st h

theorem resolveLocal_hadError (name : Token) (st : CState)
    (h : st.parser.hadError = true) : (resolveLocal name st).2.parser.hadError = true := by
  unfold resolveLocal
  split
  · exact h
  · split
    · exact error_hadError _ _ h
    · exact h

theorem addLocal_hadError (name : Token) (st : CState)
    (h : st.parser.hadError = true) : (addLocal name st).parser.hadError = true := by
  unfold addLocal
  split
  · exact error_hadError _ _ h
  · rw [modifyFrame_parserEq]; exact h

theorem declareVarLoop_hadError (name : Token) (d : Int) (ls : List LocalV)
    (st : CState) (h : st.parser.hadError = true) :
    (declareVarLoop name d ls st).parser.hadError = true := by
  induction ls generalizing st with
  | nil => simpa [declareVarLoop] using h
  | cons l rest ih =>
    simp only [declareVarLoop]
    split
    · exact h
    · split
      · exact ih _ (error_hadError _ _ h)
      · exact ih _ h

theorem declareVariable_hadError (st : CState)
    (h : st.parser.hadError = true) : (declareVariable st).parser.hadError = true := by
  unfold declareVariable
  split
  · exact h
  · exact addLocal_hadError _ _ (declareVarLoop_hadError _ _ _ _ h)

theorem parseVariable_hadError (m : String) (st : CState)
    (h : st.parser.hadError = true) : (parseVariable m st).2.parser.hadError = true := by
  simp only [parseVariable]
  split
  · exact declareVariable_hadError _ (consume_hadError _ _ _ h)
  · exact identifierConstant_hadError _ _
      (declareVariable_hadError _ (consume_hadError _ _ _ h))

theorem markInitialized_hadError (st : CState)
    (h : st.parser.hadError = true) : (markInitialized st).parser.hadError = true := by
  rw [markInitialized_parserEq]; exact h

theorem defineVariable_hadError (idx : Nat) (st : CState)
    (h : st.parser.hadError = true) : (defineVariable idx st).parser.hadError = true := by
  unfold defineVariable
  split
  · exact markInitialized_hadError st h
  · rw [emitBytes_parserEq]; exact h

theorem syncLoop_hadError (n : Nat) (st : CState)
    (h : st.parser.hadError = true) : (syncLoop n st).parser.hadError = true := by
  induction n generalizing st with
  | zero => simpa [syncLoop] using h
  | succ n ih =>
    simp only [syncLoop]
    split
    · exact h
    · split
      · exact h
      · split <;> first
          | exact h
          | exact ih _ (advance_hadError st h)

theorem synchronize_hadError (st : CState)
    (h : st.parser.hadError = true) : (synchronize st).parser.hadError = true := by
  unfold synchronize
  exact syncLoop_hadError _ _ (by simpa using h)

theorem emitByte_hadError (b : Nat) (st : CState)
    (h : st.parser.hadError = true) : (emitByte b st).parser.hadError = true := by
  rw [emitByte_parserEq]; exact h

theorem emitBytes_hadError (b1 b2 : Nat) (st : CState)
    (h : st.parser.hadError = true) : (emitBytes b1 b2 st).parser.hadError = true := by
  rw [emitBytes_parserEq]; exact h

theorem emitReturn_hadError (st : CState)
    (h : st.parser.hadError = true) : (emitReturn st).parser.hadError = true := by
  rw [emitReturn_parserEq]; exact h

theorem emitJump_hadError (op : Nat) (st : CState)
    (h : st.parser.hadError = true) : (emitJump op st).2.parser.hadError = true := by
  rw [emitJump_parserEq]; exact h

theorem beginScope_hadError (st : CState)
    (h : st.parser.hadError = true) : (beginScope st).parser.hadError = true := by
  rw [beginScope_parserEq]; exact h

theorem endScope_hadError (st : CState)
    (h : st.parser.hadError = true) : (endScope st).parser.hadError = true := by
  rw [endScope_parserEq]; exact h

theorem incArity_hadError (st : CState)
    (h : st.parser.hadError = true) : (incArity st).parser.hadError = true := by
  rw [incArity_parserEq]; exact h

theorem initCompiler_hadError (ft : FunctionType) (st : CState)
    (h : st.parser.hadError = true) : (initCompiler ft st).parser.hadError = true := by
  rw [initCompiler_parserEq]; exact h

theorem endCompiler_hadError (st : CState)
    (h : st.parser.hadError = true) : (endCompiler st).2.parser.hadError = true := by
  rw [endCompiler_parserEq]; exact h

theorem ite_hadError (c : Prop) [Decidable c] {a b : CState}
    (ha : a.parser.hadError = true) (hb : b.parser.hadError = true) :
    (if c then a else b).parser.hadError = true := by
  split <;> assumption

theorem ite_fst_hadError (c : Prop) [Decidable c] {p q : CState × Nat}
    (hp : p.1.parser.hadError = true) (hq : q.1.parser.hadError = true) :
    (if c then p else q).1.parser.hadError = true := by
  split <;> assumption

/-- The monotonicity hypothesis for the recursive callback. -/
def Mono (r : RunFn) : Prop :=
  ∀ pf st, st.parser.hadError = true → (r pf st).1.parser.hadError = true

theorem declaration_he (r : RunFn) (hr : Mono r) (st : CState)
    (h : st.parser.hadError = true) : (declaration r st).1.parser.hadError = true := by
  simp only [declaration]
  have h1 := matchTok_hadError .fun_ st h
  have h2 := matchTok_hadError .var_ _ h1
  split
  · have h3 := hr .funDeclaration _ h1
    exact ite_hadError _ (synchronize_hadError _ h3) h3
  · split
    · have h3 := hr .varDeclaration _ h2
      exact ite_hadError _ (synchronize_hadError _ h3) h3
    · have h3 := hr .statement _ h2
      exact ite_hadError _ (synchronize_hadError _ h3) h3

theorem statement_he (r : RunFn) (hr : Mono r) (st : CState)
    (h : st.parser.hadError = true) : (statement r st).1.parser.hadError = true := by
  simp only [statement]
  have h1 := matchTok_hadError .print st h
  split
  · exact hr .statementPrint _ h1
  · have h2 := matchTok_hadError .for_ _ h1
    split
    · exact hr .statementFor _ h2
    · have h3 := matchTok_hadError .if_ _ h2
      split
      · exact hr .statementIf _ h3
      · have h4 := matchTok_hadError .return_ _ h3
        split
        · exact hr .statementReturn _ h4
        · have h5 := matchTok_hadError .while_ _ h4
          split
          · exact hr .statementWhile _ h5
          · have h6 := matchTok_hadError .leftBrace _ h5
            split
            · exact endScope_hadError _ (hr .block _ (beginScope_hadError _ h6))
            · exact hr .statementExpr _ h6

theorem expression_he (r : RunFn) (hr : Mono r) (st : CState)
    (h : st.parser.hadError = true) : (expression r st).1.parser.hadError = true := by
  simp only [expression]
  exact hr _ _ h

theorem blockLoop_he (r : RunFn) (hr : Mono r) (st : CState)
    (h : st.parser.hadError = true) : (blockLoop r st).1.parser.hadError = true := by
  simp only [blockLoop]
  split
  · exact hr .blockLoop _ (hr .declaration _ h)
  · exact h

theorem block_he (r : RunFn) (hr : Mono r) (st : CState)
    (h : st.parser.hadError = true) : (block r st).1.parser.hadError = true := by
  simp only [block]
  exact consume_hadError _ _ _ (hr .blockLoop _ h)

theorem varDeclaration_he (r : RunFn) (hr : Mono r) (st : CState)
    (h : st.parser.hadError = true) : (varDeclaration r st).1.parser.hadError = true := by
  simp only [varDeclaration]
  have h1 := parseVariable_hadError "Expect variable name." st h
  have h2 := matchTok_hadError .equal _ h1
  exact defineVariable_hadError _ _ (consume_hadError _ _ _
    (ite_hadError _ (hr .expression _ h2) (emitByte_hadError _ _ h2)))

theorem funDeclaration_he (r : RunFn) (hr : Mono r) (st : CState)
    (h : st.parser.hadError = true) : (funDeclaration r st).1.parser.hadError = true := by
  simp only [funDeclaration]
  have h1 := parseVariable_hadError "Expect function name." st h
  exact defineVariable_hadError _ _ (hr _ _ (markInitialized_hadError _ h1))

theorem paramLoop_he (r : RunFn) (hr : Mono r) (st : CState)
    (h : st.parser.hadError = true) : (paramLoop r st).1.parser.hadError = true := by
  simp only [paramLoop]
  have hA := incArity_hadError st h
  refine ite_fst_hadError _ (hr .paramLoop _ ?_) ?_ <;>
    exact matchTok_hadError .comma _ (defineVariable_hadError _ _
      (parseVariable_hadError _ _
        (ite_hadError _ (errorAtCurrent_hadError _ _ hA) hA)))

theorem functionF_he (t : FunctionType) (r : RunFn) (hr : Mono r) (st : CState)
    (h : st.parser.hadError = true) : (functionF t r st).1.parser.hadError = true := by
  simp only [functionF]
  have h1 := beginScope_hadError _ (initCompiler_hadError t st h)
  exact emitBytes_hadError _ _ _ (makeConstant_hadError _ _ (endCompiler_hadError _
    (hr .block _ (consume_hadError _ _ _ (consume_hadError _ _ _
      (ite_hadError _ (hr .paramLoop _ (consume_hadError _ _ _ h1))
        (consume_hadError _ _ _ h1)))))))

theorem expressionStatement_he (r : RunFn) (hr : Mono r) (st : CState)
    (h : st.parser.hadError = true) :
    (expressionStatement r st).1.parser.hadError = true := by
  simp only [expressionStatement]
  exact emitByte_hadError _ _ (consume_hadError _ _ _ (hr .expression _ h))

theorem printStatement_he (r : RunFn) (hr : Mono r) (st : CState)
    (h : st.parser.hadError = true) : (printStatement r st).1.parser.hadError = true := by
  simp only [printStatement]
  exact emitByte_hadError _ _ (consume_hadError _ _ _ (hr .expression _ h))

theorem returnStatement_he (r : RunFn) (hr : Mono r) (st : CState)
    (h : st.parser.hadError = true) : (returnStatement r st).1.parser.hadError = true := by
  simp only [returnStatement]
  have h1 := ite_hadError (functionTypeOf st = FunctionType.typeScript)
    (error_hadError "Cannot return from top-level code." st h) h
  have h2 := matchTok_hadError .semicolon _ h1
  exact ite_fst_hadError _ (emitReturn_hadError _ h2)
    (emitByte_hadError _ _ (consume_hadError _ _ _ (hr .expression _ h2)))

theorem ifStatement_he (r : RunFn) (hr : Mono r) (st : CState)
    (h : st.parser.hadError = true) : (ifStatement r st).1.parser.hadError = true := by
  simp only [ifStatement]
  have h1 := consume_hadError .rightParen "Expect \x27)\x27 after condition." _
    (hr .expression _
      (consume_hadError .leftParen "Expect \x27(\x27 after \x27if\x27." st h))
  have h2 := hr .statement _
    (emitByte_hadError OP_POP _ (emitJump_hadError OP_JUMP_IF_FALSE _ h1))
  refine patchJump_hadError _ _ (ite_hadError _ (hr .statement _ ?_) ?_) <;>
    exact matchTok_hadError .else_ _
      (emitByte_hadError OP_POP _
        (patchJump_hadError _ _ (emitJump_hadError OP_JUMP _ h2)))

theorem whileStatement_he (r : RunFn) (hr : Mono r) (st : CState)
    (h : st.parser.hadError = true) : (whileStatement r st).1.parser.hadError = true := by
  simp only [whileStatement]
  have h1 := consume_hadError .rightParen "Expect \x27)\x27 after condition." _
    (hr .expression _
      (consume_hadError .leftParen "Expect \x27(\x27 after \x27while\x27." st h))
  have h2 := hr .statement _
    (emitByte_hadError OP_POP _ (emitJump_hadError OP_JUMP_IF_FALSE _ h1))
  exact emitByte_hadError _ _ (patchJump_hadError _ _ (emitLoop_hadError _ _ h2))

theorem ite_snd_hadError {α : Type} (c : Prop) [Decidable c] {p q : α × CState}
    (hp : p.2.parser.hadError = true) (hq : q.2.parser.hadError = true) :
    (if c then p else q).2.parser.hadError = true := by
  split <;> assumption

theorem ite_state4_hadError (c : Prop) [Decidable c]
    {p q : Int × Nat × Nat × CState}
    (hp : p.2.2.2.parser.hadError = true) (hq : q.2.2.2.parser.hadError = true) :
    (if c then p else q).2.2.2.parser.hadError = true := by
  split <;> assumption

theorem forStatement_he (r : RunFn) (hr : Mono r) (st : CState)
    (h : st.parser.hadError = true) : (forStatement r st).1.parser.hadError = true := by
  simp only [forStatement]
  have h1 := matchTok_hadError .semicolon _
    (consume_hadError .leftParen "Expect \x27(\x27 after \x27for\x27." _
      (beginScope_hadError _ h))
  have h1v := matchTok_hadError .var_ _ h1
  refine endScope_hadError _
    (ite_hadError _ (emitByte_hadError _ _ (patchJump_hadError _ _ ?_)) ?_)
  all_goals
    refine emitLoop_hadError _ _ (hr .statement _
      (ite_snd_hadError _ (matchTok_hadError .rightParen _ ?_)
        (patchJump_hadError _ _ (emitLoop_hadError _ _ (consume_hadError _ _ _
          (emitByte_hadError _ _ (hr .expression _ (emitJump_hadError _ _
            (matchTok_hadError .rightParen _ ?_)))))))))
  all_goals
    refine ite_snd_hadError _ (matchTok_hadError .semicolon _ ?_)
      (emitByte_hadError _ _ (emitJump_hadError _ _ (consume_hadError _ _ _
        (hr .expression _ (matchTok_hadError .semicolon _ ?_)))))
  all_goals
    exact ite_hadError _ h1
      (ite_hadError _ (hr .varDeclaration _ h1v) (hr .statementExpr _ h1v))

theorem parsePrecedence_he (p : Nat) (r : RunFn) (hr : Mono r) (st : CState)
    (h : st.parser.hadError = true) :
    (parsePrecedence p r st).1.parser.hadError = true := by
  simp only [parsePrecedence]
  have h1 := advance_hadError st h
  split
  · exact error_hadError _ _ h1
  · refine ite_fst_hadError _ (ite_hadError _ (error_hadError _ _ ?_) ?_) ?_ <;>
      first
        | exact matchTok_hadError .equal _ (hr _ _ (hr _ _ h1))
        | exact hr _ _ (hr _ _ h1)

theorem infixLoop_he (p : Nat) (c : Bool) (r : RunFn) (hr : Mono r) (st : CState)
    (h : st.parser.hadError = true) : (infixLoop p c r st).1.parser.hadError = true := by
  simp only [infixLoop]
  split
  · have h1 := advance_hadError st h
    split
    · exact hr _ _ (hr _ _ h1)
    · exact hr _ _ h1
  · exact h

theorem binary_he (r : RunFn) (hr : Mono r) (st : CState)
    (h : st.parser.hadError = true) : (binary r st).1.parser.hadError = true := by
  simp only [binary]
  have h1 := hr (.parsePrec ((getRule st.parser.previous.type).2.2 + 1)) st h
  split <;> first
    | exact emitBytes_hadError _ _ _ h1
    | exact emitByte_hadError _ _ h1
    | exact h1

theorem unary_he (r : RunFn) (hr : Mono r) (st : CState)
    (h : st.parser.hadError = true) : (unary r st).1.parser.hadError = true := by
  simp only [unary]
  have h1 := hr (.parsePrec PREC_UNARY) st h
  split <;> first
    | exact emitByte_hadError _ _ h1
    | exact h1

theorem grouping_he (r : RunFn) (hr : Mono r) (st : CState)
    (h : st.parser.hadError = true) : (grouping r st).1.parser.hadError = true := by
  simp only [grouping]
  exact consume_hadError _ _ _ (hr .expression _ h)

theorem literal_he (st : CState)
    (h : st.parser.hadError = true) : (literal st).1.parser.hadError = true := by
  simp only [literal]
  split <;> first
    | exact emitByte_hadError _ _ h
    | exact h

theorem numberF_he (st : CState)
    (h : st.parser.hadError = true) : (numberF st).1.parser.hadError = true := by
  simp only [numberF]
  exact emitConstant_hadError _ _ h

theorem stringF_he (st : CState)
    (h : st.parser.hadError = true) : (stringF st).1.parser.hadError = true := by
  simp only [stringF]
  exact emitConstant_hadError _ _ h

theorem namedVariable_he (name : Token) (c : Bool) (r : RunFn) (hr : Mono r)
    (st : CState) (h : st.parser.hadError = true) :
    (namedVariable name c r st).1.parser.hadError = true := by
  simp only [namedVariable]
  have h0 := resolveLocal_hadError name st h
  refine ite_fst_hadError _
    (ite_fst_hadError _
      (emitBytes_hadError _ _ _ (hr .expression _ (matchTok_hadError .equal _ ?_)))
      (emitBytes_hadError _ _ _ (matchTok_hadError .equal _ ?_)))
    (emitBytes_hadError _ _ _ ?_) <;>
    exact ite_state4_hadError _ h0 (identifierConstant_hadError _ _ h0)

theorem variableF_he (c : Bool) (r : RunFn) (hr : Mono r) (st : CState)
    (h : st.parser.hadError = true) : (variableF c r st).1.parser.hadError = true := by
  simp only [variableF]
  exact hr _ _ h

theorem and_he (r : RunFn) (hr : Mono r) (st : CState)
    (h : st.parser.hadError = true) : (and_ r st).1.parser.hadError = true := by
  simp only [and_]
  exact patchJump_hadError _ _
    (hr _ _ (emitByte_hadError _ _ (emitJump_hadError _ _ h)))

theorem or_he (r : RunFn) (hr : Mono r) (st : CState)
    (h : st.parser.hadError = true) : (or_ r st).1.parser.hadError = true := by
  simp only [or_]
  exact patchJump_hadError _ _
    (hr _ _ (emitByte_hadError _ _ (patchJump_hadError _ _
      (emitJump_hadError _ _ (emitJump_hadError _ _ h)))))

theorem call_he (r : RunFn) (hr : Mono r) (st : CState)
    (h : st.parser.hadError = true) : (call r st).1.parser.hadError = true := by
  simp only [call]
  exact emitBytes_hadError _ _ _ (hr .argumentList _ h)

theorem argListLoop_he (n : Nat) (r : RunFn) (hr : Mono r) (st : CState)
    (h : st.parser.hadError = true) : (argListLoop n r st).1.parser.hadError = true := by
  simp only [argListLoop]
  have h1 := hr .expression st h
  have h2 := ite_hadError (n = 255)
    (error_hadError "Cannot have more than 255 arguments." _ h1) h1
  have h3 := matchTok_hadError .comma _ h2
  exact ite_fst_hadError _ (hr _ _ h3) h3

theorem argumentList_he (r : RunFn) (hr : Mono r) (st : CState)
    (h : st.parser.hadError = true) : (argumentList r st).1.parser.hadError = true := by
  simp only [argumentList]
  split
  · exact consume_hadError _ _ _ (hr _ _ h)
  · exact consume_hadError _ _ _ h

/-- Stickiness of `had_error` across the whole parser: no parse function
ever clears it. -/
theorem run_hadError (fuel : Nat) (pf : PFn) (st : CState)
    (h : st.parser.hadError = true) : (run fuel pf st).1.parser.hadError = true := by
  induction fuel generalizing pf st with
  | zero => simpa [run] using h
  | succ fuel ih =>
    have hm : Mono (run fuel) := fun pf st h => ih pf st h
    cases pf with
    | declaration => simp only [run]; exact declaration_he _ hm _ h
    | statement => simp only [run]; exact statement_he _ hm _ h
    | expression => simp only [run]; exact expression_he _ hm _ h
    | block => simp only [run]; exact block_he _ hm _ h
    | blockLoop => simp only [run]; exact blockLoop_he _ hm _ h
    | varDeclaration => simp only [run]; exact varDeclaration_he _ hm _ h
    | funDeclaration => simp only [run]; exact funDeclaration_he _ hm _ h
    | functionBody t => simp only [run]; exact functionF_he t _ hm _ h
    | paramLoop => simp only [run]; exact paramLoop_he _ hm _ h
    | statementExpr => simp only [run]; exact expressionStatement_he _ hm _ h
    | statementPrint => simp only [run]; exact printStatement_he _ hm _ h
    | statementReturn => simp only [run]; exact returnStatement_he _ hm _ h
    | statementIf => simp only [run]; exact ifStatement_he _ hm _ h
    | statementWhile => simp only [run]; exact whileStatement_he _ hm _ h
    | statementFor => simp only [run]; exact forStatement_he _ hm _ h
    | parsePrec p => simp only [run]; exact parsePrecedence_he p _ hm _ h
    | infixLoop p c => simp only [run]; exact infixLoop_he p c _ hm _ h
    | binary c => simp only [run]; exact binary_he _ hm _ h
    | unary c => simp only [run]; exact unary_he _ hm _ h
    | grouping c => simp only [run]; exact grouping_he _ hm _ h
    | literalFn c => simp only [run]; exact literal_he _ h
    | numberFn c => simp only [run]; exact numberF_he _ h
    | stringFn c => simp only [run]; exact stringF_he _ h
    | variableFn c => simp only [run]; exact variableF_he c _ hm _ h
    | namedVariable n c => simp only [run]; exact namedVariable_he n c _ hm _ h
    | andFn c => simp only [run]; exact and_he _ hm _ h
    | orFn c => simp only [run]; exact or_he _ hm _ h
    | callFn c => simp only [run]; exact call_he _ hm _ h
    | argumentList => simp only [run]; exact argumentList_he _ hm _ h
    | argListLoop n => simp only [run]; exact argListLoop_he n _ hm _ h

theorem compileLoop_hadError (fuel : Nat) (st : CState)
    (h : st.parser.hadError = true) : (compileLoop fuel st).parser.hadError = true := by
  induction fuel generalizing st with
  | zero => simpa [compileLoop] using h
  | succ fuel ih =>
    simp only [compileLoop]
    have h1 := matchTok_hadError .eof st h
    split
    · exact h1
    · exact ih _ (run_hadError fuel .declaration _ h1)

/-- C1.  `compile` returns the top-level script function exactly when no
error was reported: (a) the result is `NULL` iff `had_error` is set on
exit; (b) `had_error` is sticky — no parse function ever clears it once
set; (c) outside panic mode every `errorAt` report sets it; (d) in panic
mode `errorAt` changes nothing at all (in particular it never clears the
flag). -/
theorem c1_compile_error_contract :
    (∀ fuel tokens, ((compile fuel tokens).1 = none ↔
        (compile fuel tokens).2.parser.hadError = true))
    ∧ (∀ fuel pf st, st.parser.hadError = true →
        (run fuel pf st).1.parser.hadError = true)
    ∧ (∀ fuel st, st.parser.hadError = true →
        (compileLoop fuel st).parser.hadError = true)
    ∧ (∀ tok m st, st.parser.panicMode = false →
        (errorAt tok m st).parser.hadError = true)
    ∧ (∀ tok m st, st.parser.panicMode = true → errorAt tok m st = st) := by
  refine ⟨?_, run_hadError, compileLoop_hadError, ?_, ?_⟩
  · intro fuel tokens
    simp only [compile]
    split <;> rename_i hc
    · simpa using hc
    · simpa using hc
  · intro tok m st hp
    simp [errorAt, hp]
  · intro tok m st hp
    simp [errorAt, hp]

/-- A token stream whose compilation reports an error (`;` alone: the
expression statement finds no prefix rule and reports
"Expect expression."). -/
def demoBadTokens : List Token := [⟨.semicolon, ";", 1⟩, ⟨.eof, "", 1⟩]

/-- A state whose sticky `hadError` flag is set. -/
def demoErrState : CState :=
  { parser := { previous := dummyToken, current := dummyToken,
                hadError := true, panicMode := true,
                tokens := [], errors := ["boom"] }
    compilers := [] }

/-- A clean state (no error, no panic). -/
def demoCleanState : CState :=
  { parser := { previous := dummyToken, current := dummyToken,
                hadError := false, panicMode := false,
                tokens := [], errors := [] }
    compilers := [] }

theorem c1_witness :
    ((compile 8 demoBadTokens).1 = none ↔
      (compile 8 demoBadTokens).2.parser.hadError = true)
    ∧ demoErrState.parser.hadError = true
    ∧ (run 3 .expression demoErrState).1.parser.hadError = true
    ∧ demoCleanState.parser.panicMode = false
    ∧ (errorAt dummyToken "boom" demoCleanState).parser.hadError = true
    ∧ demoErrState.parser.panicMode = true
    ∧ errorAt dummyToken "boom" demoErrState = demoErrState :=
  ⟨c1_compile_error_contract.1 8 demoBadTokens,
   by decide,
   c1_compile_error_contract.2.1 3 .expression demoErrState (by decide),
   by decide,
   c1_compile_error_contract.2.2.2.1 dummyToken "boom" demoCleanState (by decide),
   by decide,
   c1_compile_error_contract.2.2.2.2 dummyToken "boom" demoErrState (by decide)⟩

/-! ### Effects of the emitters on the current chunk -/

theorem errorAt_compilers (t : Token) (m : String) (st : CState) :
    (errorAt t m st).compilers = st.compilers := by
  unfold errorAt
  split <;> rfl

theorem error_compilers (m : String) (st : CState) :
    (error m st).compilers = st.compilers :=
  errorAt_compilers _ m st

theorem currentChunk_congr {st1 st2 : CState} (h : st1.compilers = st2.compilers) :
    currentChunk st1 = currentChunk st2 := by
  unfold currentChunk
  rw [h]

theorem currentChunk_error (m : String) (st : CState) :
    currentChunk (error m st) = currentChunk st :=
  currentChunk_congr (error_compilers m st)

theorem errorAt_spec_nopanic (t : Token) (m : String) (st : CState)
    (hp : st.parser.panicMode = false) :
    (errorAt t m st).parser.hadError = true
    ∧ (errorAt t m st).parser.errors = st.parser.errors ++ [m] := by
  simp [errorAt, hp]

theorem error_spec_nopanic (m : String) (st : CState)
    (hp : st.parser.panicMode = false) :
    (error m st).parser.hadError = true
    ∧ (error m st).parser.errors = st.parser.errors ++ [m] :=
  errorAt_spec_nopanic _ m st hp

theorem modifyChunk_compilers_ne (f : Chunk → Chunk) (st : CState)
    (h : st.compilers ≠ []) : (modifyChunk f st).compilers ≠ [] := by
  unfold modifyChunk modifyFrame
  cases hc : st.compilers with
  | nil => exact absurd hc h
  | cons c rest => simp

theorem currentChunk_modifyChunk (f : Chunk → Chunk) (st : CState)
    (h : st.compilers ≠ []) :
    currentChunk (modifyChunk f st) = f (currentChunk st) := by
  unfold modifyChunk modifyFrame currentChunk
  cases hc : st.compilers with
  | nil => exact absurd hc h
  | cons c rest => simp

theorem emitByte_code (b : Nat) (st : CState) (h : st.compilers ≠ []) :
    (currentChunk (emitByte b st)).code = (currentChunk st).code ++ [b] := by
  unfold emitByte
  rw [currentChunk_modifyChunk _ _ h]
  rfl

theorem emitByte_compilers_ne (b : Nat) (st : CState) (h : st.compilers ≠ []) :
    (emitByte b st).compilers ≠ [] :=
  modifyChunk_compilers_ne _ _ h

theorem emitBytes_code (b1 b2 : Nat) (st : CState) (h : st.compilers ≠ []) :
    (currentChunk (emitBytes b1 b2 st)).code = (currentChunk st).code ++ [b1, b2] := by
  unfold emitBytes
  rw [emitByte_code _ _ (emitByte_compilers_ne _ _ h), emitByte_code _ _ h,
    List.append_assoc]
  rfl

theorem chunkCount_emitByte (b : Nat) (st : CState) (h : st.compilers ≠ []) :
    chunkCount (emitByte b st) = chunkCount st + 1 := by
  unfold chunkCount
  rw [emitByte_code _ _ h, List.length_append, List.length_singleton]

theorem error_compilers_ne (m : String) (st : CState) (h : st.compilers ≠ []) :
    (error m st).compilers ≠ [] := by
  rw [error_compilers]; exact h

theorem currentChunk_modifyChunk2 (f g : Chunk → Chunk) (st : CState)
    (h : st.compilers ≠ []) :
    currentChunk (modifyChunk f (modifyChunk g st)) = f (g (currentChunk st)) := by
  rw [currentChunk_modifyChunk _ _ (modifyChunk_compilers_ne g st h),
    currentChunk_modifyChunk _ _ h]

/-- C3.  `emit_jump(op)` appends `op, 0xff, 0xff` and returns the offset of
the two placeholder bytes (one past the old end; two before the new end).
`patch_jump(offset)` overwrites the two placeholders with the big-endian
16-bit distance `d` from the byte just after the placeholder to the
current end of the code; when `d ≤ 65535` nothing else changes, and when
`d > 65535` the compile error "Too much code to jump over." is reported.
`emit_loop(target)` appends `LOOP` followed by the 16-bit big-endian
backward distance `d` from the byte after the operand back to `target`,
reporting "Loop body too large." when `d > 65535`. -/
theorem c3_jump_patching :
    (∀ op st, st.compilers ≠ [] →
      (currentChunk (emitJump op st).2).code
          = (currentChunk st).code ++ [op, 0xff, 0xff]
        ∧ (emitJump op st).1 = (chunkCount st : Int) + 1
        ∧ (emitJump op st).1 = (chunkCount (emitJump op st).2 : Int) - 2)
    ∧ (∀ off st, st.compilers ≠ [] → 0 ≤ off → off.toNat + 2 ≤ chunkCount st →
        (currentChunk (patchJump off st)).code
            = ((currentChunk st).code.set off.toNat
                (((chunkCount st - (off.toNat + 2)) >>> 8) &&& 0xff)).set
              (off.toNat + 1) ((chunkCount st - (off.toNat + 2)) &&& 0xff)
        ∧ (chunkCount st - (off.toNat + 2) ≤ 65535 →
            (patchJump off st).parser = st.parser)
        ∧ (chunkCount st - (off.toNat + 2) > 65535 → st.parser.panicMode = false →
            (patchJump off st).parser.hadError = true
            ∧ (patchJump off st).parser.errors
                = st.parser.errors ++ ["Too much code to jump over."]))
    ∧ (∀ ls st, st.compilers ≠ [] → 0 ≤ ls → ls.toNat ≤ chunkCount st + 3 →
        (currentChunk (emitLoop ls st)).code
            = (currentChunk st).code
              ++ [OP_LOOP, ((chunkCount st + 3 - ls.toNat) >>> 8) &&& 0xff,
                  (chunkCount st + 3 - ls.toNat) &&& 0xff]
        ∧ (chunkCount st + 3 - ls.toNat ≤ 65535 →
            (emitLoop ls st).parser = st.parser)
        ∧ (chunkCount st + 3 - ls.toNat > 65535 → st.parser.panicMode = false →
            (emitLoop ls st).parser.hadError = true
            ∧ (emitLoop ls st).parser.errors
                = st.parser.errors ++ ["Loop body too large."])) := by
  refine ⟨?_, ?_, ?_⟩
  · intro op st h
    have h1 := emitByte_compilers_ne op st h
    have h2 := emitByte_compilers_ne 0xff _ h1
    constructor
    · simp only [emitJump]
      rw [emitByte_code _ _ h2, emitByte_code _ _ h1, emitByte_code _ _ h]
      simp
    constructor
    · simp only [emitJump]
      rw [chunkCount_emitByte _ _ h2, chunkCount_emitByte _ _ h1,
        chunkCount_emitByte _ _ h]
      push_cast
      ring
    · simp only [emitJump]
  · intro off st h hoff hle
    have hjump : (chunkCount st : Int) - off - 2
        = ((chunkCount st - (off.toNat + 2) : Nat) : Int) := by omega
    have htn : ((chunkCount st - (off.toNat + 2) : Nat) : Int).toNat
        = chunkCount st - (off.toNat + 2) := Int.toNat_natCast _
    simp only [patchJump, hjump, htn]
    by_cases hd : chunkCount st - (off.toNat + 2) > 65535
    · rw [if_pos (by exact_mod_cast hd)]
      refine ⟨?_, ?_, ?_⟩
      · rw [currentChunk_modifyChunk2 _ _ _
          (error_compilers_ne "Too much code to jump over." st h),
          currentChunk_error]
      · intro hle2; omega
      · intro _ hp
        rw [modifyChunk_parserEq, modifyChunk_parserEq]
        exact errorAt_spec_nopanic _ _ _ hp
    · rw [if_neg (by exact_mod_cast hd)]
      refine ⟨?_, ?_, ?_⟩
      · rw [currentChunk_modifyChunk2 _ _ _ h]
      · intro _
        rw [modifyChunk_parserEq, modifyChunk_parserEq]
      · intro hgt; omega
  · intro ls st h hls hle
    have h1 := emitByte_compilers_ne OP_LOOP st h
    have hcnt := chunkCount_emitByte OP_LOOP st h
    have hoffset : (chunkCount (emitByte OP_LOOP st) : Int) - ls + 2
        = ((chunkCount st + 3 - ls.toNat : Nat) : Int) := by omega
    have htn : ((chunkCount st + 3 - ls.toNat : Nat) : Int).toNat
        = chunkCount st + 3 - ls.toNat := Int.toNat_natCast _
    simp only [emitLoop, hoffset, htn]
    by_cases hd : chunkCount st + 3 - ls.toNat > 65535
    · rw [if_pos (by exact_mod_cast hd)]
      have hne := error_compilers_ne "Loop body too large." _ h1
      have hne2 := emitByte_compilers_ne
        (((chunkCount st + 3 - ls.toNat) >>> 8) &&& 0xff) _ hne
      refine ⟨?_, ?_, ?_⟩
      · rw [emitByte_code _ _ hne2, emitByte_code _ _ hne, currentChunk_error,
          emitByte_code _ _ h]
        simp
      · intro hle2; omega
      · intro _ hp
        rw [emitByte_parserEq, emitByte_parserEq]
        have hp2 : (emitByte OP_LOOP st).parser.panicMode = false := by
          rw [emitByte_parserEq]; exact hp
        have h2 := error_spec_nopanic "Loop body too large." (emitByte OP_LOOP st) hp2
        exact ⟨h2.1, by rw [h2.2, emitByte_parserEq]⟩
    · rw [if_neg (by exact_mod_cast hd)]
      have hne2 := emitByte_compilers_ne
        (((chunkCount st + 3 - ls.toNat) >>> 8) &&& 0xff) _ h1
      refine ⟨?_, ?_, ?_⟩
      · rw [emitByte_code _ _ hne2, emitByte_code _ _ h1, emitByte_code _ _ h]
        simp
      · intro _
        rw [emitByte_parserEq, emitByte_parserEq, emitByte_parserEq]
      · intro hgt; omega

/-- A state with one compiler frame and an empty chunk, for the witnesses. -/
def demoFrameState : CState :=
  { parser := { previous := dummyToken, current := dummyToken,
                hadError := false, panicMode := false,
                tokens := [], errors := [] }
    compilers := [{ function := newFunction, functionType := .typeScript,
                    locals := [{ name := dummyToken, depth := 0 }],
                    scopeDepth := 0 }] }

theorem c3_witness :
    demoFrameState.compilers ≠ []
    ∧ ((currentChunk (emitJump OP_JUMP demoFrameState).2).code
          = (currentChunk demoFrameState).code ++ [OP_JUMP, 0xff, 0xff]
        ∧ (emitJump OP_JUMP demoFrameState).1
            = (chunkCount demoFrameState : Int) + 1
        ∧ (emitJump OP_JUMP demoFrameState).1
            = (chunkCount (emitJump OP_JUMP demoFrameState).2 : Int) - 2)
    ∧ (emitJump OP_JUMP demoFrameState).2.compilers ≠ []
    ∧ (0 : Int) ≤ 0
    ∧ (0 : Int).toNat + 2 ≤ chunkCount (emitJump OP_JUMP demoFrameState).2
    ∧ ((currentChunk (patchJump 0 (emitJump OP_JUMP demoFrameState).2)).code
          = ((currentChunk (emitJump OP_JUMP demoFrameState).2).code.set
              (0 : Int).toNat
              (((chunkCount (emitJump OP_JUMP demoFrameState).2
                  - ((0 : Int).toNat + 2)) >>> 8) &&& 0xff)).set
            ((0 : Int).toNat + 1)
            ((chunkCount (emitJump OP_JUMP demoFrameState).2
                - ((0 : Int).toNat + 2)) &&& 0xff)
        ∧ (chunkCount (emitJump OP_JUMP demoFrameState).2
              - ((0 : Int).toNat + 2) ≤ 65535 →
            (patchJump 0 (emitJump OP_JUMP demoFrameState).2).parser
              = (emitJump OP_JUMP demoFrameState).2.parser)
        ∧ (chunkCount (emitJump OP_JUMP demoFrameState).2
              - ((0 : Int).toNat + 2) > 65535 →
            (emitJump OP_JUMP demoFrameState).2.parser.panicMode = false →
            (patchJump 0 (emitJump OP_JUMP demoFrameState).2).parser.hadError = true
            ∧ (patchJump 0 (emitJump OP_JUMP demoFrameState).2).parser.errors
                = (emitJump OP_JUMP demoFrameState).2.parser.errors
                  ++ ["Too much code to jump over."]))
    ∧ (0 : Int).toNat ≤ chunkCount demoFrameState + 3
    ∧ ((currentChunk (emitLoop 0 demoFrameState)).code
          = (currentChunk demoFrameState).code
            ++ [OP_LOOP, ((chunkCount demoFrameState + 3 - (0 : Int).toNat) >>> 8)
                  &&& 0xff,
                (chunkCount demoFrameState + 3 - (0 : Int).toNat) &&& 0xff]
        ∧ (chunkCount demoFrameState + 3 - (0 : Int).toNat ≤ 65535 →
            (emitLoop 0 demoFrameState).parser = demoFrameState.parser)
        ∧ (chunkCount demoFrameState + 3 - (0 : Int).toNat > 65535 →
            demoFrameState.parser.panicMode = false →
            (emitLoop 0 demoFrameState).parser.hadError = true
            ∧ (emitLoop 0 demoFrameState).parser.errors
                = demoFrameState.parser.errors ++ ["Loop body too large."])) :=
  ⟨List.cons_ne_nil _ _,
   c3_jump_patching.1 OP_JUMP demoFrameState (List.cons_ne_nil _ _),
   List.cons_ne_nil _ _,
   by decide,
   by decide,
   c3_jump_patching.2.1 0 (emitJump OP_JUMP demoFrameState).2 (List.cons_ne_nil _ _)
     (by decide) (by decide),
   by decide,
   c3_jump_patching.2.2 0 demoFrameState (List.cons_ne_nil _ _) (by decide) (by decide)⟩

/-! ### C4: binary expressions -/

/-- The ten infix operators handled by `binary`. -/
def isBinaryOp : TokenType → Bool
  | .bangEqual | .equalEqual | .greater | .greaterEqual | .less | .lessEqual
  | .plus | .minus | .star | .slash => true
  | _ => false

/-- Emit a list of opcode bytes in order. -/
def emitOps (ops : List Nat) (st : CState) : CState :=
  ops.foldl (fun s b => emitByte b s) st

/-- The opcode sequence the spec's table prescribes for each binary
operator: `+ → ADD`, `- → SUBTRACT`, `* → MULTIPLY`, `/ → DIVIDE`,
`== → EQUAL`, `!= → EQUAL,NOT`, `> → GREATER`, `>= → LESS,NOT`,
`< → LESS`, `<= → GREATER,NOT` (the multiplication opcode is spelled
`OP_MULTIPY` in chunk.h). -/
def specBinaryOps : TokenType → List Nat
  | .plus => [OP_ADD]
  | .minus => [OP_SUBTRACT]
  | .star => [OP_MULTIPY]
  | .slash => [OP_DIVIDE]
  | .equalEqual => [OP_EQUAL]
  | .bangEqual => [OP_EQUAL, OP_NOT]
  | .greater => [OP_GREATER]
  | .greaterEqual => [OP_LESS, OP_NOT]
  | .less => [OP_LESS]
  | .lessEqual => [OP_GREATER, OP_NOT]
  | _ => []

/-- C4.  For every binary operator, `binary` compiles the right operand by
a `parsePrecedence` call at one precedence level above the operator's own
(`rule.precedence + 1`, which yields left associativity) and then emits
exactly the opcode sequence of the spec's table. -/
theorem c4_binary_compilation (fuel : Nat) (c : Bool) (st : CState)
    (h : isBinaryOp st.parser.previous.type = true) :
    run (fuel + 1) (.binary c) st
      = (emitOps (specBinaryOps st.parser.previous.type)
          ((run fuel (.parsePrec ((getRule st.parser.previous.type).2.2 + 1)) st).1),
         0) := by
  cases ht : st.parser.previous.type <;>
    simp_all [run, binary, emitOps, specBinaryOps, isBinaryOp, emitBytes]

/-- `demoFrameState` with `+` as the just-consumed operator token. -/
def demoPlusState : CState :=
  { demoFrameState with
    parser := { demoFrameState.parser with previous := ⟨.plus, "+", 1⟩ } }

theorem c4_witness :
    isBinaryOp demoPlusState.parser.previous.type = true
    ∧ run 4 (.binary true) demoPlusState
        = (emitOps (specBinaryOps demoPlusState.parser.previous.type)
            ((run 3 (.parsePrec ((getRule demoPlusState.parser.previous.type).2.2 + 1))
                demoPlusState).1), 0) :=
  ⟨by decide, c4_binary_compilation 3 true demoPlusState (by decide)⟩

/-! ### C7: the locals array is capped at 256 entries -/

theorem addLocal_full (name : Token) (st : CState)
    (h : (currentLocals st).length = UINT8_COUNT) :
    addLocal name st
      = error "Too many local variables in function (max 256)." st := by
  simp [addLocal, h]

/-- 255 consecutive local declarations (the reserved slot plus these fill
the 256-entry array). -/
def addLocals : Nat → CState → CState
  | 0, st => st
  | n + 1, st => addLocals n (addLocal ⟨.identifier, "x", 1⟩ st)

def demoLocalsFull : CState := addLocals 255 (initCompiler .typeScript demoCleanState)

/-- C7.  The locals array of a compiler frame holds `UINT8_COUNT = 256`
entries: (a) `addLocal` on a full frame reports exactly
"Too many local variables in function (max 256)." and leaves the locals
untouched; (b) `initCompiler` reserves slot 0 with an empty name at depth
0, so a fresh frame starts with one local already taken; (c) below the cap
`addLocal` appends the local with depth -1; (d) concretely, after the
reserved slot plus 255 declared locals the frame is full and error-free,
and declaring one more (the 257th array entry) reports the error. -/
theorem c7_local_limit :
    (∀ st name c rest, st.compilers = c :: rest →
        c.locals.length = UINT8_COUNT → st.parser.panicMode = false →
        (addLocal name st).parser.hadError = true
        ∧ (addLocal name st).parser.errors
            = st.parser.errors ++ ["Too many local variables in function (max 256)."]
        ∧ (addLocal name st).compilers = st.compilers)
    ∧ (∀ ft st, (initCompiler ft st).compilers.head?.map (fun c => c.locals)
        = some [{ name := { type := .eof, lexeme := "", line := 0 }, depth := 0 }])
    ∧ (∀ st name c rest, st.compilers = c :: rest →
        c.locals.length < UINT8_COUNT →
        (addLocal name st).compilers
          = { c with locals := c.locals ++ [{ name := name, depth := -1 }] } :: rest)
    ∧ ((currentLocals demoLocalsFull).length = UINT8_COUNT
        ∧ demoLocalsFull.parser.hadError = false
        ∧ demoLocalsFull.parser.panicMode = false
        ∧ (addLocal ⟨.identifier, "y", 1⟩ demoLocalsFull).parser.hadError = true
        ∧ (addLocal ⟨.identifier, "y", 1⟩ demoLocalsFull).parser.errors
            = ["Too many local variables in function (max 256)."]
        ∧ currentLocals (addLocal ⟨.identifier, "y", 1⟩ demoLocalsFull)
            = currentLocals demoLocalsFull) := by
  refine ⟨?_, ?_, ?_, ?_⟩
  · intro st name c rest hc hlen hp
    have hcl : (currentLocals st).length = UINT8_COUNT := by
      simp [currentLocals, hc, hlen]
    rw [addLocal_full name st hcl]
    have hs := error_spec_nopanic "Too many local variables in function (max 256)." st hp
    exact ⟨hs.1, hs.2, error_compilers _ st⟩
  · intro ft st
    simp [initCompiler]
  · intro st name c rest hc hlen
    have hcl : ¬((currentLocals st).length = UINT8_COUNT) := by
      simp only [currentLocals, hc]
      omega
    simp [addLocal, hcl, modifyFrame, hc]
  · refine ⟨?_, ?_, ?_, ?_, ?_, ?_⟩ <;> decide

theorem c7_witness :
    (demoLocalsFull.compilers
        = demoLocalsFull.compilers.head! :: demoLocalsFull.compilers.tail)
    ∧ demoLocalsFull.compilers.head!.locals.length = UINT8_COUNT
    ∧ demoLocalsFull.parser.panicMode = false
    ∧ ((addLocal dummyToken demoLocalsFull).parser.hadError = true
        ∧ (addLocal dummyToken demoLocalsFull).parser.errors
            = demoLocalsFull.parser.errors
              ++ ["Too many local variables in function (max 256)."]
        ∧ (addLocal dummyToken demoLocalsFull).compilers
            = demoLocalsFull.compilers) :=
  ⟨rfl, by decide, by decide,
   c7_local_limit.1 demoLocalsFull dummyToken demoLocalsFull.compilers.head!
     demoLocalsFull.compilers.tail rfl (by decide) (by decide)⟩

/-! ### C10: defining a variable -/

theorem currentChunk_modifyFrame_keepfn (f : CompilerF → CompilerF)
    (hf : ∀ c, (f c).function = c.function) (st : CState) :
    currentChunk (modifyFrame f st) = currentChunk st := by
  unfold currentChunk modifyFrame
  cases hc : st.compilers with
  | nil => simp [hc]
  | cons c rest => simp [hc, hf]

theorem markInitialized_currentChunk (st : CState) :
    currentChunk (markInitialized st) = currentChunk st := by
  unfold markInitialized
  split
  · rfl
  · refine currentChunk_modifyFrame_keepfn _ ?_ st
    intro c
    cases h : c.locals.getLast? <;> simp

/-- C10.  `defineVariable` at scope depth > 0 appends no bytecode: it is
exactly `markInitialized`, which only sets the depth of the most recently
added local to the current scope depth (the initializer's value is left on
the value stack as the local's slot).  At scope depth 0 it emits
`OP_DEFINE_GLOBAL` followed by the name's constant index. -/
theorem c10_defineVariable_local :
    (∀ st idx c rest, st.compilers = c :: rest → c.scopeDepth > 0 →
        defineVariable idx st = markInitialized st
        ∧ currentChunk (defineVariable idx st) = currentChunk st
        ∧ ∀ ls l, c.locals = ls ++ [l] →
            (defineVariable idx st).compilers
              = ({ c with locals := ls ++ [{ l with depth := c.scopeDepth }] } :: rest))
    ∧ (∀ st idx c rest, st.compilers = c :: rest → c.scopeDepth = 0 →
        defineVariable idx st = emitBytes OP_DEFINE_GLOBAL idx st
        ∧ (currentChunk (defineVariable idx st)).code
            = (currentChunk st).code ++ [OP_DEFINE_GLOBAL, idx]) := by
  constructor
  · intro st idx c rest hc hd
    have hsd : scopeDepthOf st > 0 := by simp [scopeDepthOf, hc]; exact hd
    have hdv : defineVariable idx st = markInitialized st := by
      simp [defineVariable, hsd]
    refine ⟨hdv, by rw [hdv, markInitialized_currentChunk], ?_⟩
    intro ls l hl
    rw [hdv]
    unfold markInitialized
    rw [if_neg (by simp [scopeDepthOf, hc]; omega)]
    simp [modifyFrame, hc, hl, List.getLast?_concat, List.dropLast_concat]
  · intro st idx c rest hc hd
    have hsd : ¬(scopeDepthOf st > 0) := by simp [scopeDepthOf, hc, hd]
    have hdv : defineVariable idx st = emitBytes OP_DEFINE_GLOBAL idx st := by
      simp [defineVariable, hsd]
    exact ⟨hdv, by rw [hdv, emitBytes_code _ _ _ (by simp [hc])]⟩

/-- A frame inside a scope (depth 1) with one declared local after the
reserved slot. -/
def demoLocalState : CState :=
  { parser := demoCleanState.parser
    compilers := [{ function := newFunction, functionType := .typeScript,
                    locals := [{ name := dummyToken, depth := 0 },
                               { name := ⟨.identifier, "x", 1⟩, depth := -1 }],
                    scopeDepth := 1 }] }

theorem c10_witness :
    (demoLocalState.compilers
        = demoLocalState.compilers.head! :: demoLocalState.compilers.tail)
    ∧ demoLocalState.compilers.head!.scopeDepth > 0
    ∧ (defineVariable 0 demoLocalState = markInitialized demoLocalState
        ∧ currentChunk (defineVariable 0 demoLocalState)
            = currentChunk demoLocalState
        ∧ ∀ ls l, demoLocalState.compilers.head!.locals = ls ++ [l] →
            (defineVariable 0 demoLocalState).compilers
              = ({ demoLocalState.compilers.head! with
                    locals := ls ++ [{ l with
                      depth := demoLocalState.compilers.head!.scopeDepth }] }
                  :: demoLocalState.compilers.tail)) :=
  ⟨rfl, by decide,
   c10_defineVariable_local.1 demoLocalState 0 demoLocalState.compilers.head!
     demoLocalState.compilers.tail rfl (by decide)⟩

/-! ### C5: `interpret` versus compile failure -/

/-- C5 (evidence of the code bug).  The source `";"` fails to compile —
`compile` reports "Expect expression.", sets `had_error`, and returns
`NULL` — yet `interpret` as it stands in src/main.c lines 92-95 discards
the compile result and returns `INTERPRET_OK`.  The final conjunct shows
`interpret` returns `INTERPRET_OK` on every input: it never yields
`COMPILE_ERROR` and never executes bytecode (its body contains no
dispatch-loop call at all), contradicting the claim and the
`INTERPRET_COMPILE_ERROR` handling of its caller `runfile`. -/
theorem c5_interpret_ignores_compile_failure :
    (compile 8 demoBadTokens).1 = none
    ∧ (compile 8 demoBadTokens).2.parser.hadError = true
    ∧ (compile 8 demoBadTokens).2.parser.errors = ["Expect expression."]
    ∧ interpret 8 demoBadTokens = .ok
    ∧ (∀ fuel tokens, interpret fuel tokens = .ok) :=
  ⟨rfl, by decide, by decide, rfl, fun _ _ => rfl⟩

end Clox

namespace CloxStr

/-! ### C2: string interning

The intern table `vm.strings` and the string objects of src/unnamed/part_003
(the interning `object.c`).  A string object's pointer identity is modelled
by a numeric handle allocated in order. -/

/-- A string object handle (stands for the `ObjString*` pointer). -/
abbrev StrId := Nat

/-- The VM's string state: the next fresh handle and the intern table
`vm.strings`, one `(handle, bytes)` entry per interned string.

Modelled from the spec: `table.c` is not under src/.  §4.4 specifies
`findString(bytes, hash)` as a bytewise probe of the intern set and
`set(k, v)` as insertion; open addressing, hashing and tombstones are
collapsed into an association list, which preserves exactly the
lookup/insert behavior the interning argument needs. -/
structure StrHeap where
  nextId : StrId
  table : List (StrId × String)

/-- `tableFindString(strings, chars, length, hash)`: the handle interned
for these bytes, if any. -/
def tableFindString (h : StrHeap) (bytes : String) : Option StrId :=
  (h.table.find? (fun e => e.2 = bytes)).map (fun e => e.1)

/-- `allocateString` (src/unnamed/part_003): make a fresh string object
and record it in `vm.strings` via `tableSet`. -/
def allocateString (bytes : String) (h : StrHeap) : StrId × StrHeap :=
  (h.nextId, { nextId := h.nextId + 1, table := (h.nextId, bytes) :: h.table })

/-- `copyString` (src/unnamed/part_003 lines 56-66): return the already
interned object when one with equal bytes exists, else copy the bytes to
the heap and allocate. -/
def copyString (bytes : String) (h : StrHeap) : StrId × StrHeap :=
  match tableFindString h bytes with
  | some interned => (interned, h)
  | none => allocateString bytes h

/-- `takeString` (src/unnamed/part_003): used by runtime concatenation;
frees its buffer and returns the interned object when the bytes are
already interned, else allocates taking ownership.  The handle returned is
determined exactly as in `copyString`. -/
def takeString (bytes : String) (h : StrHeap) : StrId × StrHeap :=
  match tableFindString h bytes with
  | some interned => (interned, h)
  | none => allocateString bytes h

/-- One string creation: a source literal or identifier constant
(`copyString`) or a runtime concatenation result (`takeString`). -/
inductive StrOp where
  | copy (bytes : String)
  | take (bytes : String)
deriving DecidableEq, Repr

def StrOp.bytes : StrOp → String
  | .copy b => b
  | .take b => b

def runOp : StrOp → StrHeap → StrId × StrHeap
  | .copy b, h => copyString b h
  | .take b, h => takeString b h

/-- Run a sequence of string creations; the result pairs each creation's
bytes with the handle it returned. -/
def runOps : List StrOp → StrHeap → List (String × StrId) × StrHeap
  | [], h => ([], h)
  | op :: rest, h =>
    let r := runOp op h
    let rs := runOps rest r.2
    ((op.bytes, r.1) :: rs.1, rs.2)

/-- Invariant of the intern table: every handle is below `nextId`, and
entries are pairwise distinct in both the handle and the bytes. -/
def Inv (h : StrHeap) : Prop :=
  (∀ e ∈ h.table, e.1 < h.nextId)
  ∧ h.table.Pairwise (fun a b => a.1 ≠ b.1 ∧ a.2 ≠ b.2)

theorem tableFindString_some {h : StrHeap} {b : String} {id : StrId}
    (hf : tableFindString h b = some id) : (id, b) ∈ h.table := by
  unfold tableFindString at hf
  cases hfind : h.table.find? (fun e => e.2 = b) with
  | none => rw [hfind] at hf; exact absurd hf (by simp)
  | some e =>
    rw [hfind] at hf
    have hmem := List.mem_of_find?_eq_some hfind
    have hpred := List.find?_some hfind
    simp at hf hpred
    rw [← hf, ← hpred]
    exact hmem

theorem tableFindString_none {h : StrHeap} {b : String}
    (hf : tableFindString h b = none) : ∀ e ∈ h.table, e.2 ≠ b := by
  unfold tableFindString at hf
  intro e he hbe
  cases hfind : h.table.find? (fun e => e.2 = b) with
  | some x => rw [hfind] at hf; exact absurd hf (by simp)
  | none =>
    have := List.find?_eq_none.mp hfind e he
    simp [hbe] at this

/-- Effect of one creation: the invariant is preserved, the returned
handle is interned for the given bytes, the table only grows, and
`nextId` only grows. -/
theorem runOp_spec (op : StrOp) (h : StrHeap) (hinv : Inv h) :
    Inv (runOp op h).2
    ∧ ((runOp op h).1, op.bytes) ∈ (runOp op h).2.table
    ∧ (∀ e ∈ h.table, e ∈ (runOp op h).2.table)
    ∧ h.nextId ≤ (runOp op h).2.nextId := by
  have main : ∀ b, Inv (copyString b h).2
      ∧ ((copyString b h).1, b) ∈ (copyString b h).2.table
      ∧ (∀ e ∈ h.table, e ∈ (copyString b h).2.table)
      ∧ h.nextId ≤ (copyString b h).2.nextId := by
    intro b
    unfold copyString
    cases hf : tableFindString h b with
    | some id =>
      exact ⟨hinv, tableFindString_some hf, fun e he => he, le_refl _⟩
    | none =>
      have hfresh := tableFindString_none hf
      unfold allocateString
      refine ⟨⟨?_, ?_⟩, ?_, ?_, ?_⟩
      · intro e he
        simp at he
        rcases he with he | he
        · simp [he]
        · exact Nat.lt_succ_of_lt (hinv.1 e he)
      · refine List.Pairwise.cons ?_ hinv.2
        intro e he
        exact ⟨ne_of_gt (hinv.1 e he), fun hb => hfresh e he hb.symm⟩
      · simp
      · intro e he; simp [he]
      · simp
  cases op with
  | copy b => exact main b
  | take b => exact main b

/-- Table entries are never removed by a creation (no invariant needed). -/
theorem runOp_grow (op : StrOp) (h : StrHeap) :
    ∀ e ∈ h.table, e ∈ (runOp op h).2.table := by
  have main : ∀ b, ∀ e ∈ h.table, e ∈ (copyString b h).2.table := by
    intro b e he
    unfold copyString
    cases hf : tableFindString h b with
    | some id => exact he
    | none => simp [allocateString, he]
  cases op with
  | copy b => exact main b
  | take b => exact main b

/-- Table entries survive a whole run. -/
theorem runOps_grow (ops : List StrOp) :
    ∀ (h : StrHeap), ∀ e ∈ h.table, e ∈ (runOps ops h).2.table := by
  induction ops with
  | nil => intro h e he; simpa [runOps] using he
  | cons op rest ih =>
    intro h e he
    simp only [runOps]
    exact ih _ _ (runOp_grow op h e he)

/-- Effect of a whole run: the invariant holds at the end and every
creation's `(handle, bytes)` pair is in the final intern table. -/
theorem runOps_spec (ops : List StrOp) (h : StrHeap) (hinv : Inv h) :
    Inv (runOps ops h).2
    ∧ ∀ p ∈ (runOps ops h).1, (p.2, p.1) ∈ (runOps ops h).2.table := by
  induction ops generalizing h with
  | nil => exact ⟨hinv, by simp [runOps]⟩
  | cons op rest ih =>
    obtain ⟨hinv1, hmem1, hgrow, _⟩ := runOp_spec op h hinv
    obtain ⟨hinvF, hmemF⟩ := ih (runOp op h).2 hinv1
    refine ⟨hinvF, ?_⟩
    intro p hp
    simp only [runOps, List.mem_cons] at hp
    rcases hp with hp | hp
    · subst hp
      exact runOps_grow rest _ _ hmem1
    · exact hmemF p hp

/-- C2.  Starting from any intern table satisfying the invariant (in
particular the empty table `initVM` installs), any two string creations —
string literals, identifier constants (`copyString`) or runtime
concatenations (`takeString`) — return the same object handle exactly when
their byte sequences are equal: object identity coincides with byte
equality for strings. -/
theorem c2_string_interning (ops : List StrOp) (h0 : StrHeap) (hinv : Inv h0) :
    ∀ p q, p ∈ (runOps ops h0).1 → q ∈ (runOps ops h0).1 →
      (p.2 = q.2 ↔ p.1 = q.1) := by
  obtain ⟨⟨_, hpw⟩, hmem⟩ := runOps_spec ops h0 hinv
  intro p q hp hq
  have hp' := hmem p hp
  have hq' := hmem q hq
  by_cases heq : ((p.2, p.1) : StrId × String) = (q.2, q.1)
  · have h1 : p.2 = q.2 := congrArg Prod.fst heq
    have h2 : p.1 = q.1 := congrArg Prod.snd heq
    simp [h1, h2]
  · have hsym : Symmetric (fun a b : StrId × String => a.1 ≠ b.1 ∧ a.2 ≠ b.2) :=
      fun a b hab => ⟨hab.1.symm, hab.2.symm⟩
    have hR := hpw.forall hsym hp' hq' heq
    exact ⟨fun h2 => absurd h2 hR.1, fun h1 => absurd h1 hR.2⟩

def demoOps : List StrOp := [.copy "foo", .take "foo", .copy "bar"]

/-- The empty intern state installed by `initVM`. -/
def demoHeap : StrHeap := { nextId := 0, table := [] }

theorem c2_witness :
    Inv demoHeap
    ∧ (runOps demoOps demoHeap).1 = [("foo", 0), ("foo", 0), ("bar", 1)]
    ∧ (∀ p q, p ∈ (runOps demoOps demoHeap).1 → q ∈ (runOps demoOps demoHeap).1 →
        (p.2 = q.2 ↔ p.1 = q.1)) :=
  ⟨⟨by intro e he; simp [demoHeap] at he, by simp [demoHeap]⟩,
   rfl,
   c2_string_interning demoOps demoHeap
     ⟨by intro e he; simp [demoHeap] at he, by simp [demoHeap]⟩⟩

end CloxStr

namespace CloxVM

/-! ### C6 and C8: the virtual machine's stack discipline -/

/-- Tagged runtime values (`value.h`, used throughout src/ but not itself
under src/): Nil, Bool, Number and Obj handles.  The Number payload is an
IEEE-754 double; negation on doubles is an exact sign flip, so the payload
is modelled as an exact rational. -/
inductive RtValue where
  | nil
  | bool (b : Bool)
  | num (x : Rat)
  | obj (id : Nat)
deriving DecidableEq, Repr

/-- `IS_NUMBER(value)`. -/
def IS_NUMBER : RtValue → Bool
  | .num _ => true
  | _ => false

/-- `AS_NUMBER(value)` (meaningful only under `IS_NUMBER`). -/
def AS_NUMBER : RtValue → Rat
  | .num x => x
  | _ => 0

/-- Modelled from the spec: the `OP_NEGATE` case of the VM dispatch loop
(the frame-based `run()` is not under src/; the vm.c that is under src/ is
a pre-tagged-value variant whose values are raw doubles).  Spec §4.5:
"peek must be Number else runtime error; negate in place".  The stack is a
list with the top (`stack_top - 1`) at its head; `none` is the
runtime-error halt (`runtimeError` printing, stack reset and
`INTERPRET_RUNTIME_ERROR`). -/
def runNegate (stack : List RtValue) : Option (List RtValue) :=
  match stack with
  | [] => none
  | v :: rest =>
    if IS_NUMBER v then some (.num (-(AS_NUMBER v)) :: rest) else none

/-- C6.  Executing NEGATE with a non-Number on top of the stack halts with
a runtime error; with `Number x` on top it replaces the top slot in place
by `Number (-x)` and leaves every other stack slot unchanged (the `rest`
of the stack is returned untouched). -/
theorem c6_negate_semantics :
    (∀ v rest, IS_NUMBER v = false → runNegate (v :: rest) = none)
    ∧ (∀ x rest, runNegate (.num x :: rest) = some (.num (-x) :: rest)) := by
  constructor
  · intro v rest hv
    simp [runNegate, hv]
  · intro x rest
    simp [runNegate, IS_NUMBER, AS_NUMBER]

theorem c6_witness :
    IS_NUMBER (.bool true) = false
    ∧ runNegate (.bool true :: [.nil]) = none
    ∧ runNegate (.num 2 :: [.nil]) = some (.num (-2) :: [.nil]) :=
  ⟨by decide,
   c6_negate_semantics.1 (.bool true) [.nil] (by decide),
   c6_negate_semantics.2 2 [.nil]⟩

/-- `FRAMES_MAX` (vm.h line 8). -/
def FRAMES_MAX : Nat := 64

/-- `STACK_MAX = FRAMES_MAX * UINT8_COUNT` (vm.h line 9;
`UINT8_COUNT = 256`). -/
def STACK_MAX : Nat := FRAMES_MAX * 256

/-- `Callframe` (vm.h lines 12-16): executing function (a heap handle),
instruction pointer, base slot of the frame's stack window. -/
structure Callframe where
  function : Nat
  ip : Nat
  slots : Nat
deriving DecidableEq, Repr

/-- The VM's value-stack region.  `items` lists the values written so far
in stack order, so `stack_top = items.length`; the fixed backing array is
`stack[0 .. STACK_MAX)`, and a write at an index `≥ STACK_MAX` lands
outside that array. -/
structure VStack where
  items : List RtValue
deriving DecidableEq, Repr

/-- `push` (src/vm.c lines 59-62): `*vm.stackTop = value; vm.stackTop++;`
— no capacity check of any kind: it has no error outcome and writes at
index `stack_top` unconditionally. -/
def push (v : RtValue) (s : VStack) : VStack :=
  { items := s.items ++ [v] }

/-- C8 counterexample.  Pushing onto a full value stack does not fail with
a runtime error — `push` has no error outcome at all — and the write goes
to index `STACK_MAX`, outside the fixed `STACK_MAX`-slot array: after the
push the written region exceeds the array, refuting "a push onto a full
value stack ... fails with a runtime error ... and never ... writes out of
bounds". -/
theorem c8_push_unchecked_counterexample :
    ¬((push RtValue.nil ⟨List.replicate STACK_MAX RtValue.nil⟩).items.length
        ≤ STACK_MAX) := by
  simp [push]

/-- Modelled from the spec: the frame-count check of the `CALL`
instruction (§4.5: "if `frame_count == 64` → stack-overflow error"; the
frame-based vm.c is not under src/).  The frames array is the fixed-size
`frames[FRAMES_MAX]` of vm.h. -/
def callPushFrame (frames : List Callframe) (f : Callframe) :
    Except String (List Callframe) :=
  if frames.length = FRAMES_MAX then .error "Stack overflow."
  else .ok (frames ++ [f])

/-- C8 as amended.  The value stack and the call-frame array are
fixed-size compile-time arrays (`64 * 256` values, 64 frames) and are
never reallocated; attempting to push a 65th simultaneous call frame fails
with the stack-overflow runtime error, and a successful frame push stays
inside the array; but value-stack pushes are unchecked: `push` never
raises an error and always writes exactly one slot, even when the stack is
already full. -/
theorem c8_fixed_capacity_amended :
    (STACK_MAX = 64 * 256 ∧ FRAMES_MAX = 64)
    ∧ (∀ fs f, fs.length = FRAMES_MAX →
        callPushFrame fs f = .error "Stack overflow.")
    ∧ (∀ fs f, fs.length < FRAMES_MAX →
        callPushFrame fs f = .ok (fs ++ [f]) ∧ (fs ++ [f]).length ≤ FRAMES_MAX)
    ∧ (∀ v s, (push v s).items.length = s.items.length + 1) := by
  refine ⟨⟨rfl, rfl⟩, ?_, ?_, ?_⟩
  · intro fs f h
    simp [callPushFrame, h]
  · intro fs f h
    constructor
    · rw [callPushFrame, if_neg (by omega)]
    · simp
      omega
  · intro v s
    simp [push]

def demoFrame : Callframe := ⟨0, 0, 0⟩

theorem c8_witness :
    (List.replicate FRAMES_MAX demoFrame).length = FRAMES_MAX
    ∧ callPushFrame (List.replicate FRAMES_MAX demoFrame) demoFrame
        = .error "Stack overflow."
    ∧ ([] : List Callframe).length < FRAMES_MAX
    ∧ (callPushFrame [] demoFrame = .ok ([] ++ [demoFrame])
        ∧ (([] : List Callframe) ++ [demoFrame]).length ≤ FRAMES_MAX) :=
  ⟨by simp,
   c8_fixed_capacity_amended.2.1 _ _ (by simp),
   by decide,
   c8_fixed_capacity_amended.2.2.1 [] demoFrame (by decide)⟩

end CloxVM

namespace CloxCli

/-! ### C9: CLI dispatch (src/unnamed/part_000) -/

/-- The action `main` takes, by argument count. -/
inductive CliAction where
  | repl
  | runFile (path : String)
  | usageError
deriving DecidableEq, Repr

/-- `main(argc, argv)` (src/unnamed/part_000 lines 60-73): `args` is
`argv[1..]` (so `argc = args.length + 1`): no arguments → REPL; exactly
one → run that file; more → print usage and `exit(64)`. -/
def mainDispatch (args : List String) : CliAction :=
  match args with
  | [] => .repl
  | [path] => .runFile path
  | _ => .usageError

/-- The `exit(64)` of the usage error. -/
def USAGE_EXIT_CODE : Nat := 64

/-- `readFile(path)` (src/unnamed/part_000 lines 22-49), with the file
system abstracted: `contents` is the file's byte sequence, or `none` when
`fopen`, `malloc` or `fread` fails — each of which exits with code 74.  On
success the returned buffer is the bytes with a NUL terminator appended. -/
def readFileModel (contents : Option (List Nat)) : Except Nat (List Nat) :=
  match contents with
  | none => .error 74
  | some bytes => .ok (bytes ++ [0])

/-- `runfile(path)` (lines 51-58) together with `main`'s normal return:
the process exit code, `none` meaning a normal exit (0).  `interp`
abstracts `interpret(source)`. -/
def runfileModel (contents : Option (List Nat))
    (interp : List Nat → Clox.InterpretResult) : Option Nat :=
  match readFileModel contents with
  | .error code => some code
  | .ok source =>
    match interp source with
    | .compileError => some 65
    | .runtimeError => some 70
    | .ok => none

/-- `repl()` (lines 8-20) over the list of stdin lines before EOF: the
first component is the lines handed to `interpret`, in order; the second
is the number of `"> "` prompts printed (one per iteration, including the
final iteration that reads EOF and breaks). -/
def replModel (stdinLines : List String) : List String × Nat :=
  match stdinLines with
  | [] => ([], 1)
  | l :: rest =>
    let r := replModel rest
    (l :: r.1, r.2 + 1)

/-- C9.  CLI dispatch on argument count: no arguments runs the REPL, which
prompts `"> "` once per iteration and interprets each stdin line in order
until EOF; exactly one argument reads that file as bytes with a NUL
terminator appended and interprets it once, exiting 65 on COMPILE_ERROR,
70 on RUNTIME_ERROR, 74 on I/O failure (and normally otherwise); more than
one argument is a usage error exiting 64. -/
theorem c9_cli_dispatch :
    (mainDispatch [] = .repl)
    ∧ (∀ p, mainDispatch [p] = .runFile p)
    ∧ (∀ p q rest, mainDispatch (p :: q :: rest) = .usageError)
    ∧ USAGE_EXIT_CODE = 64
    ∧ (∀ bytes, readFileModel (some bytes) = .ok (bytes ++ [0]))
    ∧ readFileModel none = .error 74
    ∧ (∀ i, runfileModel none i = some 74)
    ∧ (∀ bytes i, runfileModel (some bytes) i
        = match i (bytes ++ [0]) with
          | .compileError => some 65
          | .runtimeError => some 70
          | .ok => none)
    ∧ (∀ stdinLines, (replModel stdinLines).1 = stdinLines
        ∧ (replModel stdinLines).2 = stdinLines.length + 1) := by
  refine ⟨rfl, fun p => rfl, fun p q rest => rfl, rfl, fun bytes => rfl, rfl,
    fun i => rfl, fun bytes i => rfl, ?_⟩
  intro stdinLines
  induction stdinLines with
  | nil => exact ⟨rfl, rfl⟩
  | cons l rest ih => simp [replModel, ih.1, ih.2]

end CloxCli
